import Mathlib

/-!
Verification of the core of the eruim cultural-events backend: the
multilingual auto-fill pipeline, transliteration fallback, slug
derivation, diff-based updates with cascades, referential guards and
the lifecycle scheduler.

Modelling conventions, used throughout:
* text is `String` (processed through its `List Char` data);
* timestamps are `Int` seconds (the code only compares datetimes);
* geographic coordinates are an `Int` pair (the code only compares them
  element-wise, never does arithmetic on them);
* external gateways (translation, geocoding, GeoNames) are explicit
  function parameters, modelling the success path of the service call:
  a gateway failure aborts the whole request before any write, so the
  properties below quantify over requests whose gateway calls succeed;
* MongoDB queries over a collection are modelled as operations on a
  `List` of documents.
-/

/-- Mirror of `backend.src.utils.exceptions.UserError`: message plus HTTP
status code (the constructor default in the source is 400). Messages are
carried without apostrophes. -/
structure UErr where
  message : String
  status_code : Nat
  deriving DecidableEq

/-- Association-list lookup, used to embed a Python dict `.get(key, default)`
over characters. -/
def lookupChar {α : Type} : List (Char × α) → Char → Option α
  | [], _ => none
  | (k, v) :: rest, c => if c = k then some v else lookupChar rest c

theorem lookupChar_some_mem {α : Type} (ps : List (Char × α)) (c : Char) (v : α)
    (h : lookupChar ps c = some v) : (c, v) ∈ ps := by
  induction ps with
  | nil => simp [lookupChar] at h
  | cons p rest ih =>
    obtain ⟨k, w⟩ := p
    by_cases hc : c = k
    · subst hc
      simp [lookupChar] at h
      subst h
      exact List.mem_cons_self _ _
    · simp only [lookupChar, if_neg hc] at h
      exact List.mem_cons_of_mem _ (ih h)

theorem lookupChar_eq_none {α : Type} (ps : List (Char × α)) (c : Char)
    (h : ∀ p ∈ ps, c ≠ p.1) : lookupChar ps c = none := by
  induction ps with
  | nil => rfl
  | cons p rest ih =>
    obtain ⟨k, w⟩ := p
    have hck : c ≠ k := h (k, w) (List.mem_cons_self _ _)
    simp only [lookupChar, if_neg hck]
    exact ih fun q hq => h q (List.mem_cons_of_mem _ hq)

/-- Embeds Python `''.join(f(char) for char in text)` where `f` may return
several characters. -/
def concatMapChars (f : Char → List Char) : List Char → List Char
  | [] => []
  | c :: rest => f c ++ concatMapChars f rest

theorem mem_concatMapChars (f : Char → List Char) (l : List Char) (x : Char)
    (h : x ∈ concatMapChars f l) : ∃ c ∈ l, x ∈ f c := by
  induction l with
  | nil => simp [concatMapChars] at h
  | cons c rest ih =>
    simp only [concatMapChars, List.mem_append] at h
    rcases h with h | h
    · exact ⟨c, List.mem_cons_self _ _, h⟩
    · obtain ⟨d, hd, hx⟩ := ih h
      exact ⟨d, List.mem_cons_of_mem _ hd, hx⟩

theorem concatMapChars_id (f : Char → List Char) (l : List Char)
    (h : ∀ c ∈ l, f c = [c]) : concatMapChars f l = l := by
  induction l with
  | nil => rfl
  | cons c rest ih =>
    simp only [concatMapChars, h c (List.mem_cons_self _ _)]
    simp only [List.cons_append, List.nil_append, List.cons.injEq, true_and]
    exact ih fun d hd => h d (List.mem_cons_of_mem _ hd)

theorem concatMapChars_ne_nil (f : Char → List Char) (l : List Char)
    (hl : l ≠ []) (hf : ∀ c ∈ l, f c ≠ []) : concatMapChars f l ≠ [] := by
  cases l with
  | nil => exact absurd rfl hl
  | cons c rest =>
    simp only [concatMapChars]
    intro hcontra
    rcases List.append_eq_nil.mp hcontra with ⟨h1, _⟩
    exact hf c (List.mem_cons_self _ _) h1

/-- Embeds one Python `text.replace(seq, rep)` call where `seq` is the
two-character pattern `a, b` and `rep` the single character `r`:
left-to-right, non-overlapping replacement. -/
def replaceDigraph (a b r : Char) : List Char → List Char
  | c1 :: c2 :: rest =>
    if c1 = a ∧ c2 = b then r :: replaceDigraph a b r rest
    else c1 :: replaceDigraph a b r (c2 :: rest)
  | l => l

theorem replaceDigraph_short (a b r : Char) (l : List Char)
    (hl : ∀ (c1 c2 : Char) (rest : List Char), l = c1 :: c2 :: rest → False) :
    replaceDigraph a b r l = l := by
  match l with
  | [] => rfl
  | [c] => rfl
  | c1 :: c2 :: rest => exact absurd rfl (hl c1 c2 rest)

theorem mem_replaceDigraph (a b r : Char) (l : List Char) (x : Char)
    (h : x ∈ replaceDigraph a b r l) : x = r ∨ x ∈ l := by
  induction l using replaceDigraph.induct a b r with
  | case1 c1 c2 rest hab ih =>
    rw [replaceDigraph, if_pos hab] at h
    rcases List.mem_cons.mp h with hx | hx
    · exact Or.inl hx
    · rcases ih hx with hx | hx
      · exact Or.inl hx
      · exact Or.inr (List.mem_cons_of_mem _ (List.mem_cons_of_mem _ hx))
  | case2 c1 c2 rest hab ih =>
    rw [replaceDigraph, if_neg hab] at h
    rcases List.mem_cons.mp h with hx | hx
    · exact Or.inr (hx ▸ List.mem_cons_self _ _)
    · rcases ih hx with hx | hx
      · exact Or.inl hx
      · exact Or.inr (List.mem_cons_of_mem _ hx)
  | case3 l hl => exact Or.inr (replaceDigraph_short a b r l hl ▸ h)

theorem replaceDigraph_id (a b r : Char) (l : List Char)
    (h : ∀ c ∈ l, c ≠ a) : replaceDigraph a b r l = l := by
  induction l using replaceDigraph.induct a b r with
  | case1 c1 c2 rest hab ih =>
    exact absurd hab.1 (h c1 (List.mem_cons_self _ _))
  | case2 c1 c2 rest hab ih =>
    rw [replaceDigraph, if_neg hab]
    simp only [List.cons.injEq, true_and]
    exact ih fun c hc => h c (List.mem_cons_of_mem _ hc)
  | case3 l hl => exact replaceDigraph_short a b r l hl

theorem replaceDigraph_ne_nil (a b r : Char) (l : List Char)
    (hl : l ≠ []) : replaceDigraph a b r l ≠ [] := by
  induction l using replaceDigraph.induct a b r with
  | case1 c1 c2 rest hab ih =>
    rw [replaceDigraph, if_pos hab]
    exact List.cons_ne_nil _ _
  | case2 c1 c2 rest hab ih =>
    rw [replaceDigraph, if_neg hab]
    exact List.cons_ne_nil _ _
  | case3 l hle =>
    rw [replaceDigraph_short a b r l hle]
    exact hl

/-- Sequential application of `text.replace(seq, rep)` for each digraph of a
Python dict, in the dict's insertion order (Python 3.7+ iteration order). -/
def applyDigraphs (tbl : List ((Char × Char) × Char)) (l : List Char) : List Char :=
  tbl.foldl (fun acc p => replaceDigraph p.1.1 p.1.2 p.2 acc) l

theorem mem_applyDigraphs (tbl : List ((Char × Char) × Char)) (l : List Char)
    (x : Char) (h : x ∈ applyDigraphs tbl l) : (∃ p ∈ tbl, x = p.2) ∨ x ∈ l := by
  induction tbl generalizing l with
  | nil => exact Or.inr h
  | cons p rest ih =>
    simp only [applyDigraphs, List.foldl_cons] at h
    rcases ih (replaceDigraph p.1.1 p.1.2 p.2 l) h with hmem | hmem
    · obtain ⟨q, hq, hx⟩ := hmem
      exact Or.inl ⟨q, List.mem_cons_of_mem _ hq, hx⟩
    · rcases mem_replaceDigraph _ _ _ _ _ hmem with hx | hx
      · exact Or.inl ⟨p, List.mem_cons_self _ _, hx⟩
      · exact Or.inr hx

theorem applyDigraphs_id (tbl : List ((Char × Char) × Char)) (l : List Char)
    (h : ∀ p ∈ tbl, ∀ c ∈ l, c ≠ p.1.1) : applyDigraphs tbl l = l := by
  induction tbl with
  | nil => rfl
  | cons p rest ih =>
    simp only [applyDigraphs, List.foldl_cons]
    rw [replaceDigraph_id p.1.1 p.1.2 p.2 l
      (fun c hc => h p (List.mem_cons_self _ _) c hc)]
    exact ih fun q hq c hc => h q (List.mem_cons_of_mem _ hq) c hc

theorem applyDigraphs_ne_nil (tbl : List ((Char × Char) × Char)) (l : List Char)
    (hl : l ≠ []) : applyDigraphs tbl l ≠ [] := by
  induction tbl generalizing l with
  | nil => exact hl
  | cons p rest ih =>
    simp only [applyDigraphs, List.foldl_cons]
    exact ih _ (replaceDigraph_ne_nil _ _ _ _ hl)

/-- The single-character entries of `eng_to_ru` in
`backend/src/utils/transliteration.py`. The digraph keys of the Python dict
can never match the single character handed to `dict.get` and are embedded
separately in `ruDigraphs`. -/
def ruPairs : List (Char × List Char) := [
  ('a', ['а']), ('A', ['А']), ('b', ['б']), ('B', ['Б']),
  ('c', ['к']), ('C', ['К']), ('d', ['д']), ('D', ['Д']),
  ('e', ['е']), ('E', ['Е']), ('f', ['ф']), ('F', ['Ф']),
  ('g', ['г']), ('G', ['Г']), ('h', ['х']), ('H', ['Х']),
  ('i', ['и']), ('I', ['И']), ('j', ['й']), ('J', ['Й']),
  ('k', ['к']), ('K', ['К']), ('l', ['л']), ('L', ['Л']),
  ('m', ['м']), ('M', ['М']), ('n', ['н']), ('N', ['Н']),
  ('o', ['о']), ('O', ['О']), ('p', ['п']), ('P', ['П']),
  ('q', ['к']), ('Q', ['К']), ('r', ['р']), ('R', ['Р']),
  ('s', ['с']), ('S', ['С']), ('t', ['т']), ('T', ['Т']),
  ('u', ['у']), ('U', ['У']), ('v', ['в']), ('V', ['В']),
  ('w', ['в']), ('W', ['В']), ('x', ['к', 'с']), ('X', ['К', 'с']),
  ('y', ['й']), ('Y', ['Й']), ('z', ['з']), ('Z', ['З'])]

/-- The digraph table of `transliterate_en_to_ru`, in source order. -/
def ruDigraphs : List ((Char × Char) × Char) := [
  (('c', 'h'), 'ч'), (('C', 'h'), 'Ч'), (('C', 'H'), 'Ч'),
  (('s', 'h'), 'ш'), (('S', 'h'), 'Ш'), (('S', 'H'), 'Ш'),
  (('t', 'h'), 'т'), (('T', 'h'), 'Т'), (('T', 'H'), 'Т'),
  (('t', 's'), 'ц'), (('T', 's'), 'Ц'), (('T', 'S'), 'Ц')]

/-- The `eng_to_hebrew` single-character entries. -/
def hePairs : List (Char × List Char) := [
  ('a', ['א']), ('b', ['ב']), ('c', ['ק']), ('d', ['ד']), ('e', ['א']),
  ('f', ['פ']), ('g', ['ג']), ('h', ['ה']), ('i', ['י']), ('j', ['ג']),
  ('k', ['ק']), ('l', ['ל']), ('m', ['מ']), ('n', ['נ']), ('o', ['ו']),
  ('p', ['פ']), ('q', ['ק']), ('r', ['ר']), ('s', ['ס']), ('t', ['ת']),
  ('u', ['ו']), ('v', ['ב']), ('w', ['ו']), ('x', ['ק', 'ס']), ('y', ['י']),
  ('z', ['ז'])]

/-- The digraph table of `transliterate_en_to_he`, in source order. -/
def heDigraphs : List ((Char × Char) × Char) := [
  (('c', 'h'), 'ח'), (('s', 'h'), 'ש'), (('t', 'h'), 'ת'), (('t', 's'), 'צ')]

/-- Model of Python `str.lower` on one character, restricted to the cased
alphabets this codebase handles: ASCII A-Z and Cyrillic А-Я, Ё. Characters
outside these (Hebrew is caseless, digits and punctuation are uncased) are
returned unchanged, as in Python. -/
def lowerPairs : List (Char × Char) := [
  ('A', 'a'), ('B', 'b'), ('C', 'c'), ('D', 'd'), ('E', 'e'), ('F', 'f'),
  ('G', 'g'), ('H', 'h'), ('I', 'i'), ('J', 'j'), ('K', 'k'), ('L', 'l'),
  ('M', 'm'), ('N', 'n'), ('O', 'o'), ('P', 'p'), ('Q', 'q'), ('R', 'r'),
  ('S', 's'), ('T', 't'), ('U', 'u'), ('V', 'v'), ('W', 'w'), ('X', 'x'),
  ('Y', 'y'), ('Z', 'z'),
  ('А', 'а'), ('Б', 'б'), ('В', 'в'), ('Г', 'г'), ('Д', 'д'), ('Е', 'е'),
  ('Ж', 'ж'), ('З', 'з'), ('И', 'и'), ('Й', 'й'), ('К', 'к'), ('Л', 'л'),
  ('М', 'м'), ('Н', 'н'), ('О', 'о'), ('П', 'п'), ('Р', 'р'), ('С', 'с'),
  ('Т', 'т'), ('У', 'у'), ('Ф', 'ф'), ('Х', 'х'), ('Ц', 'ц'), ('Ч', 'ч'),
  ('Ш', 'ш'), ('Щ', 'щ'), ('Ъ', 'ъ'), ('Ы', 'ы'), ('Ь', 'ь'), ('Э', 'э'),
  ('Ю', 'ю'), ('Я', 'я'), ('Ё', 'ё')]

def pyLower (c : Char) : Char := (lookupChar lowerPairs c).getD c

/-- `eng_to_ru.get(char, char)`. -/
def ruCharMap (c : Char) : List Char := (lookupChar ruPairs c).getD [c]

/-- `eng_to_hebrew.get(char, char)`. -/
def heCharMap (c : Char) : List Char := (lookupChar hePairs c).getD [c]

/-- `transliterate_en_to_ru` from `backend/src/utils/transliteration.py`:
digraph replacement passes, then the character-by-character mapping. -/
def transliterate_en_to_ru (l : List Char) : List Char :=
  concatMapChars ruCharMap (applyDigraphs ruDigraphs l)

/-- `transliterate_en_to_he`: lower-casing, digraph replacement passes, then
the character-by-character mapping. -/
def transliterate_en_to_he (l : List Char) : List Char :=
  concatMapChars heCharMap (applyDigraphs heDigraphs (l.map pyLower))

def translitRuStr (s : String) : String := String.mk (transliterate_en_to_ru s.data)

def translitHeStr (s : String) : String := String.mk (transliterate_en_to_he s.data)

/-- The ASCII letters a-z and A-Z, in that order. -/
def latinLetters : List Char := [
  'a', 'b', 'c', 'd', 'e', 'f', 'g', 'h', 'i', 'j', 'k', 'l', 'm',
  'n', 'o', 'p', 'q', 'r', 's', 't', 'u', 'v', 'w', 'x', 'y', 'z',
  'A', 'B', 'C', 'D', 'E', 'F', 'G', 'H', 'I', 'J', 'K', 'L', 'M',
  'N', 'O', 'P', 'Q', 'R', 'S', 'T', 'U', 'V', 'W', 'X', 'Y', 'Z']

/-- The ASCII letters A-Z. -/
def latinUpper : List Char := [
  'A', 'B', 'C', 'D', 'E', 'F', 'G', 'H', 'I', 'J', 'K', 'L', 'M',
  'N', 'O', 'P', 'Q', 'R', 'S', 'T', 'U', 'V', 'W', 'X', 'Y', 'Z']

/-- Characters that the transliteration fallback passes through untouched:
digits, common punctuation, Hebrew block characters (U+0590 to U+05FF,
code points 1424-1535) and lowercase Cyrillic (а-я: 1072-1103, ё: 1105). -/
def passThroughChar (c : Char) : Bool :=
  (48 ≤ c.toNat && c.toNat ≤ 57) ||
  ([' ', '.', ',', '!', '?', '-', ':', ';', '(', ')', '"', '«', '»'].contains c) ||
  (1424 ≤ c.toNat && c.toNat ≤ 1535) ||
  (1072 ≤ c.toNat && c.toNat ≤ 1103) || (c.toNat == 1105)

theorem ruPairs_values_no_latin : ∀ p ∈ ruPairs, ∀ x ∈ p.2, x ∉ latinLetters := by
  decide

theorem ruPairs_covers_latin : ∀ c ∈ latinLetters, (lookupChar ruPairs c).isSome := by
  decide

theorem ruCharMap_no_latin (c : Char) (x : Char) (hx : x ∈ ruCharMap c) :
    x ∉ latinLetters := by
  unfold ruCharMap at hx
  cases hl : lookupChar ruPairs c with
  | none =>
    rw [hl] at hx
    simp only [Option.getD_none, List.mem_singleton] at hx
    subst hx
    intro hmem
    have := ruPairs_covers_latin x hmem
    rw [hl] at this
    simp at this
  | some v =>
    rw [hl] at hx
    simp only [Option.getD_some] at hx
    exact ruPairs_values_no_latin (c, v) (lookupChar_some_mem _ _ _ hl) x hx

theorem lowerPairs_values_not_upper : ∀ p ∈ lowerPairs, p.2 ∉ latinUpper := by
  decide

theorem lowerPairs_covers_upper : ∀ c ∈ latinUpper, (lookupChar lowerPairs c).isSome := by
  decide

theorem pyLower_not_upper (c : Char) : pyLower c ∉ latinUpper := by
  unfold pyLower
  cases hl : lookupChar lowerPairs c with
  | none =>
    simp only [Option.getD_none]
    intro hmem
    have := lowerPairs_covers_upper c hmem
    rw [hl] at this
    simp at this
  | some v =>
    simp only [Option.getD_some]
    exact lowerPairs_values_not_upper (c, v) (lookupChar_some_mem _ _ _ hl)

theorem heDigraphs_values_not_upper : ∀ p ∈ heDigraphs, p.2 ∉ latinUpper := by
  decide

theorem hePairs_values_no_latin : ∀ p ∈ hePairs, ∀ x ∈ p.2, x ∉ latinLetters := by
  decide

theorem latin_upper_or_heKey :
    ∀ c ∈ latinLetters, c ∈ latinUpper ∨ (lookupChar hePairs c).isSome := by
  decide

theorem heCharMap_no_latin (c : Char) (hc : c ∉ latinUpper) (x : Char)
    (hx : x ∈ heCharMap c) : x ∉ latinLetters := by
  unfold heCharMap at hx
  cases hl : lookupChar hePairs c with
  | none =>
    rw [hl] at hx
    simp only [Option.getD_none, List.mem_singleton] at hx
    subst hx
    intro hmem
    rcases latin_upper_or_heKey x hmem with hup | hsome
    · exact hc hup
    · rw [hl] at hsome
      simp at hsome
  | some v =>
    rw [hl] at hx
    simp only [Option.getD_some] at hx
    exact hePairs_values_no_latin (c, v) (lookupChar_some_mem _ _ _ hl) x hx

theorem lowerPairs_keys_not_pass : ∀ p ∈ lowerPairs, passThroughChar p.1 = false := by
  decide

theorem ruPairs_keys_not_pass : ∀ p ∈ ruPairs, passThroughChar p.1 = false := by
  decide

theorem hePairs_keys_not_pass : ∀ p ∈ hePairs, passThroughChar p.1 = false := by
  decide

theorem ruDigraphs_starts_not_pass : ∀ p ∈ ruDigraphs, passThroughChar p.1.1 = false := by
  decide

theorem heDigraphs_starts_not_pass : ∀ p ∈ heDigraphs, passThroughChar p.1.1 = false := by
  decide

theorem pass_ne_of_keys {α : Type} (ps : List (Char × α)) (c : Char)
    (hpass : passThroughChar c = true)
    (hkeys : ∀ p ∈ ps, passThroughChar p.1 = false) :
    lookupChar ps c = none := by
  refine lookupChar_eq_none ps c fun p hp hceq => ?_
  rw [hceq] at hpass
  rw [hkeys p hp] at hpass
  exact Bool.false_ne_true hpass

theorem map_pyLower_id (l : List Char) (h : ∀ c ∈ l, passThroughChar c = true) :
    l.map pyLower = l := by
  induction l with
  | nil => rfl
  | cons c rest ih =>
    simp only [List.map_cons, List.cons.injEq]
    constructor
    · unfold pyLower
      rw [pass_ne_of_keys lowerPairs c (h c (List.mem_cons_self _ _)) lowerPairs_keys_not_pass]
      rfl
    · exact ih fun d hd => h d (List.mem_cons_of_mem _ hd)

theorem transliterate_en_to_ru_id (l : List Char)
    (h : ∀ c ∈ l, passThroughChar c = true) : transliterate_en_to_ru l = l := by
  unfold transliterate_en_to_ru
  rw [applyDigraphs_id ruDigraphs l]
  · refine concatMapChars_id _ _ fun c hc => ?_
    unfold ruCharMap
    rw [pass_ne_of_keys ruPairs c (h c hc) ruPairs_keys_not_pass]
    rfl
  · intro p hp c hc hceq
    have h1 := h c hc
    rw [hceq, ruDigraphs_starts_not_pass p hp] at h1
    exact Bool.false_ne_true h1

theorem transliterate_en_to_he_id (l : List Char)
    (h : ∀ c ∈ l, passThroughChar c = true) : transliterate_en_to_he l = l := by
  unfold transliterate_en_to_he
  rw [map_pyLower_id l h]
  rw [applyDigraphs_id heDigraphs l]
  · refine concatMapChars_id _ _ fun c hc => ?_
    unfold heCharMap
    rw [pass_ne_of_keys hePairs c (h c hc) hePairs_keys_not_pass]
    rfl
  · intro p hp c hc hceq
    have h1 := h c hc
    rw [hceq, heDigraphs_starts_not_pass p hp] at h1
    exact Bool.false_ne_true h1

theorem transliterate_en_to_ru_no_latin (l : List Char) (x : Char)
    (hx : x ∈ transliterate_en_to_ru l) : x ∉ latinLetters := by
  obtain ⟨c, _, hxc⟩ := mem_concatMapChars _ _ _ hx
  exact ruCharMap_no_latin c x hxc

theorem transliterate_en_to_he_no_latin (l : List Char) (x : Char)
    (hx : x ∈ transliterate_en_to_he l) : x ∉ latinLetters := by
  obtain ⟨c, hc, hxc⟩ := mem_concatMapChars _ _ _ hx
  refine heCharMap_no_latin c ?_ x hxc
  rcases mem_applyDigraphs _ _ _ hc with ⟨p, hp, hcp⟩ | hcl
  · intro hup
    exact heDigraphs_values_not_upper p hp (hcp ▸ hup)
  · obtain ⟨d, _, hd⟩ := List.mem_map.mp hcl
    intro hup
    exact pyLower_not_upper d (hd ▸ hup)

/-- C10: for every input, `transliterate_en_to_ru` and
`transliterate_en_to_he` return text with no ASCII Latin letter a-z or A-Z
left in it, while digits, punctuation, Hebrew characters and lowercase
Cyrillic characters pass through unchanged. -/
theorem transliteration_removes_latin (l : List Char) :
    (∀ x ∈ transliterate_en_to_ru l, x ∉ latinLetters) ∧
    (∀ x ∈ transliterate_en_to_he l, x ∉ latinLetters) ∧
    ((∀ c ∈ l, passThroughChar c = true) →
      transliterate_en_to_ru l = l ∧ transliterate_en_to_he l = l) :=
  ⟨fun x hx => transliterate_en_to_ru_no_latin l x hx,
   fun x hx => transliterate_en_to_he_no_latin l x hx,
   fun h => ⟨transliterate_en_to_ru_id l h, transliterate_en_to_he_id l h⟩⟩

/-- Witness for C10 at concrete inputs: the Cyrillic output of `Ch` is not a
Latin letter, and a digit-punctuation-Hebrew string passes through. -/
theorem transliteration_removes_latin_witness :
    ('Ч' ∉ latinLetters) ∧
    (transliterate_en_to_ru ['1', '-', 'ש'] = ['1', '-', 'ש'] ∧
      transliterate_en_to_he ['1', '-', 'ש'] = ['1', '-', 'ש']) :=
  ⟨(transliteration_removes_latin ['C', 'h']).1 'Ч' (by decide),
   (transliteration_removes_latin ['1', '-', 'ש']).2.2 (by decide)⟩

/-- Modelled from the spec: the Slug Deriver of section 4.3. The `slugify`
function called by the controllers is the external python-slugify
dependency, whose code is not part of src/. The spec describes it as a
deterministic pure function mapping a canonical name to a URL-safe
identifier; it is modelled as the standard slug algorithm: lowercase,
replace every maximal run of characters outside a-z, 0-9 by a single
hyphen, and strip leading and trailing hyphens. `isSlugChar` recognises
the characters kept in a slug. -/
def isSlugChar (c : Char) : Bool :=
  (97 ≤ c.toNat && c.toNat ≤ 122) || (48 ≤ c.toNat && c.toNat ≤ 57)

/-- Lowercase the text and replace every non-slug character by a hyphen. -/
def dashify (l : List Char) : List Char :=
  l.map fun c => if isSlugChar (pyLower c) then pyLower c else '-'

/-- Collapse every run of consecutive hyphens to a single hyphen. -/
def collapseDashes : List Char → List Char
  | c1 :: c2 :: rest =>
    if c1 = '-' ∧ c2 = '-' then collapseDashes (c2 :: rest)
    else c1 :: collapseDashes (c2 :: rest)
  | l => l

/-- Drop leading hyphens. -/
def trimLeadDashes (l : List Char) : List Char := l.dropWhile fun c => c == '-'

/-- Drop trailing hyphens. -/
def trimTrailDashes : List Char → List Char
  | [] => []
  | c :: rest =>
    match trimTrailDashes rest with
    | [] => if c = '-' then [] else [c]
    | r => c :: r

def slugify (l : List Char) : List Char :=
  trimTrailDashes (trimLeadDashes (collapseDashes (dashify l)))

def slugifyStr (s : String) : String := String.mk (slugify s.data)

/-- True when no two consecutive characters are both hyphens. -/
def noDoubleDash : List Char → Bool
  | c1 :: c2 :: rest => (!(c1 = '-' && c2 = '-')) && noDoubleDash (c2 :: rest)
  | _ => true

/-- True when the first character, if any, is not a hyphen. -/
def headNotDash : List Char → Bool
  | [] => true
  | c :: _ => !(c == '-')

/-- True when the last character, if any, is not a hyphen. -/
def lastNotDash : List Char → Bool
  | [] => true
  | [c] => !(c == '-')
  | _ :: rest => lastNotDash rest

theorem lowerPairs_keys_not_slug : ∀ p ∈ lowerPairs, isSlugChar p.1 = false := by
  decide

theorem lowerPairs_keys_ne_dash : ∀ p ∈ lowerPairs, p.1 ≠ '-' := by
  decide

theorem pyLower_eq_self (c : Char) (h : ∀ p ∈ lowerPairs, c ≠ p.1) :
    pyLower c = c := by
  unfold pyLower
  rw [lookupChar_eq_none lowerPairs c h]
  rfl

theorem pyLower_slug_id (c : Char) (h : isSlugChar c = true) : pyLower c = c := by
  refine pyLower_eq_self c fun p hp hceq => ?_
  rw [hceq, lowerPairs_keys_not_slug p hp] at h
  exact Bool.false_ne_true h

theorem pyLower_dash : pyLower '-' = '-' := by
  refine pyLower_eq_self '-' fun p hp hceq => ?_
  exact lowerPairs_keys_ne_dash p hp hceq.symm

theorem mem_dashify (l : List Char) (x : Char) (h : x ∈ dashify l) :
    isSlugChar x = true ∨ x = '-' := by
  obtain ⟨c, _, hc⟩ := List.mem_map.mp h
  by_cases hs : isSlugChar (pyLower c) = true
  · rw [if_pos hs] at hc
    exact Or.inl (hc ▸ hs)
  · rw [if_neg hs] at hc
    exact Or.inr hc.symm

theorem collapseDashes_short (l : List Char)
    (hl : ∀ (c1 c2 : Char) (rest : List Char), l = c1 :: c2 :: rest → False) :
    collapseDashes l = l := by
  match l with
  | [] => rfl
  | [c] => rfl
  | c1 :: c2 :: rest => exact absurd rfl (hl c1 c2 rest)

theorem mem_collapseDashes (l : List Char) (x : Char)
    (h : x ∈ collapseDashes l) : x ∈ l := by
  induction l using collapseDashes.induct with
  | case1 c1 c2 rest hab ih =>
    rw [collapseDashes, if_pos hab] at h
    exact List.mem_cons_of_mem _ (ih h)
  | case2 c1 c2 rest hab ih =>
    rw [collapseDashes, if_neg hab] at h
    rcases List.mem_cons.mp h with hx | hx
    · exact hx ▸ List.mem_cons_self _ _
    · exact List.mem_cons_of_mem _ (ih hx)
  | case3 l hl =>
    rw [collapseDashes_short l hl] at h
    exact h

theorem mem_dropWhileChars (p : Char → Bool) (l : List Char) (x : Char)
    (h : x ∈ l.dropWhile p) : x ∈ l := by
  induction l with
  | nil => simp [List.dropWhile] at h
  | cons c rest ih =>
    by_cases hc : p c = true
    · rw [List.dropWhile_cons_of_pos hc] at h
      exact List.mem_cons_of_mem _ (ih h)
    · rw [List.dropWhile_cons_of_neg hc] at h
      exact h

theorem mem_trimTrailDashes (l : List Char) (x : Char)
    (h : x ∈ trimTrailDashes l) : x ∈ l := by
  induction l with
  | nil => exact h
  | cons c rest ih =>
    rw [trimTrailDashes] at h
    cases htt : trimTrailDashes rest with
    | nil =>
      rw [htt] at h
      by_cases hc : c = '-'
      · rw [if_pos hc] at h
        exact absurd h (List.not_mem_nil x)
      · rw [if_neg hc] at h
        rcases List.mem_cons.mp h with hx | hx
        · exact hx ▸ List.mem_cons_self _ _
        · exact absurd hx (List.not_mem_nil x)
    | cons r0 rrest =>
      rw [htt] at h
      rcases List.mem_cons.mp h with hx | hx
      · exact hx ▸ List.mem_cons_self _ _
      · exact List.mem_cons_of_mem _ (ih (htt.symm ▸ hx))

theorem slugify_chars (l : List Char) (x : Char) (h : x ∈ slugify l) :
    isSlugChar x = true ∨ x = '-' := by
  unfold slugify at h
  exact mem_dashify l x
    (mem_collapseDashes _ x
      (mem_dropWhileChars _ _ x (mem_trimTrailDashes _ x h)))

theorem collapseDashes_cons_head (c : Char) (rest : List Char) :
    ∃ t, collapseDashes (c :: rest) = c :: t := by
  induction rest generalizing c with
  | nil => exact ⟨[], rfl⟩
  | cons c2 rest2 ih =>
    by_cases hab : c = '-' ∧ c2 = '-'
    · rw [collapseDashes, if_pos hab]
      obtain ⟨t, ht⟩ := ih c2
      exact ⟨t, by rw [ht, hab.1, hab.2]⟩
    · rw [collapseDashes, if_neg hab]
      exact ⟨collapseDashes (c2 :: rest2), rfl⟩

theorem noDoubleDash_tail (c : Char) (rest : List Char)
    (h : noDoubleDash (c :: rest) = true) : noDoubleDash rest = true := by
  cases rest with
  | nil => rfl
  | cons c2 rest2 =>
    rw [noDoubleDash, Bool.and_eq_true] at h
    exact h.2

theorem noDoubleDash_collapseDashes (l : List Char) :
    noDoubleDash (collapseDashes l) = true := by
  induction l using collapseDashes.induct with
  | case1 c1 c2 rest hab ih =>
    rw [collapseDashes, if_pos hab]
    exact ih
  | case2 c1 c2 rest hab ih =>
    rw [collapseDashes, if_neg hab]
    obtain ⟨t, ht⟩ := collapseDashes_cons_head c2 rest
    rw [ht]
    rw [ht] at ih
    rw [noDoubleDash, Bool.and_eq_true]
    refine ⟨?_, ih⟩
    simp only [Bool.not_eq_eq_eq_not, Bool.not_true, Bool.and_eq_false_iff]
    by_cases h1 : c1 = '-'
    · by_cases h2 : c2 = '-'
      · exact absurd ⟨h1, h2⟩ hab
      · exact Or.inr (by simp [h2])
    · exact Or.inl (by simp [h1])
  | case3 l hl =>
    rw [collapseDashes_short l hl]
    match l with
    | [] => rfl
    | [c] => rfl
    | c1 :: c2 :: rest => exact absurd rfl (hl c1 c2 rest)

theorem noDoubleDash_dropWhile (p : Char → Bool) (l : List Char)
    (h : noDoubleDash l = true) : noDoubleDash (l.dropWhile p) = true := by
  induction l with
  | nil => rfl
  | cons c rest ih =>
    by_cases hc : p c = true
    · rw [List.dropWhile_cons_of_pos hc]
      exact ih (noDoubleDash_tail c rest h)
    · rw [List.dropWhile_cons_of_neg hc]
      exact h

theorem trimTrailDashes_cons_shape (c : Char) (rest : List Char) :
    trimTrailDashes (c :: rest) = [] ∨
      ∃ t, trimTrailDashes (c :: rest) = c :: t := by
  rw [trimTrailDashes]
  cases htt : trimTrailDashes rest with
  | nil =>
    by_cases hc : c = '-'
    · exact Or.inl (by rw [if_pos hc])
    · exact Or.inr ⟨[], by rw [if_neg hc]⟩
  | cons r0 rrest => exact Or.inr ⟨r0 :: rrest, rfl⟩

theorem noDoubleDash_trimTrailDashes (l : List Char)
    (h : noDoubleDash l = true) : noDoubleDash (trimTrailDashes l) = true := by
  induction l with
  | nil => rfl
  | cons c rest ih =>
    rw [trimTrailDashes]
    cases htt : trimTrailDashes rest with
    | nil =>
      by_cases hc : c = '-'
      · rw [if_pos hc]; rfl
      · rw [if_neg hc]; rfl
    | cons r0 rrest =>
      have hres := ih (noDoubleDash_tail c rest h)
      rw [htt] at hres
      cases rest with
      | nil => simp [trimTrailDashes] at htt
      | cons c2 rest2 =>
        rcases trimTrailDashes_cons_shape c2 rest2 with hsh | ⟨t, hsh⟩
        · rw [htt] at hsh
          exact absurd hsh (List.cons_ne_nil _ _)
        · rw [htt] at hsh
          have hr0 : r0 = c2 := (List.cons.injEq _ _ _ _).mp hsh |>.1
          rw [noDoubleDash, Bool.and_eq_true]
          refine ⟨?_, hres⟩
          rw [noDoubleDash, Bool.and_eq_true] at h
          rw [hr0]
          exact h.1

theorem headNotDash_dropDashes (l : List Char) :
    headNotDash (l.dropWhile fun c => c == '-') = true := by
  induction l with
  | nil => rfl
  | cons c rest ih =>
    rw [List.dropWhile_cons]
    by_cases hc : (c == '-') = true
    · rw [if_pos hc]
      exact ih
    · rw [if_neg hc]
      show (!(c == '-')) = true
      simpa using hc

theorem headNotDash_trimTrailDashes (l : List Char)
    (h : headNotDash l = true) : headNotDash (trimTrailDashes l) = true := by
  cases l with
  | nil => rfl
  | cons c rest =>
    rcases trimTrailDashes_cons_shape c rest with hsh | ⟨t, hsh⟩
    · rw [hsh]; rfl
    · rw [hsh]
      exact h

theorem lastNotDash_trimTrailDashes (l : List Char) :
    lastNotDash (trimTrailDashes l) = true := by
  induction l with
  | nil => rfl
  | cons c rest ih =>
    rw [trimTrailDashes]
    cases htt : trimTrailDashes rest with
    | nil =>
      show lastNotDash (if c = '-' then [] else [c]) = true
      by_cases hc : c = '-'
      · rw [if_pos hc]
        rfl
      · rw [if_neg hc]
        show (!(c == '-')) = true
        simpa using hc
    | cons r0 rrest =>
      rw [htt] at ih
      show lastNotDash (c :: r0 :: rrest) = true
      exact ih

theorem trimLeadDashes_id (l : List Char) (h : headNotDash l = true) :
    trimLeadDashes l = l := by
  cases l with
  | nil => rfl
  | cons c rest =>
    rw [headNotDash] at h
    simp only [Bool.not_eq_eq_eq_not, Bool.not_true] at h
    unfold trimLeadDashes
    exact List.dropWhile_cons_of_neg (by simp [h])

theorem trimTrailDashes_id (l : List Char) (h : lastNotDash l = true) :
    trimTrailDashes l = l := by
  induction l with
  | nil => rfl
  | cons c rest ih =>
    cases rest with
    | nil =>
      have hb : (!(c == '-')) = true := h
      show (if c = '-' then [] else [c]) = [c]
      rw [if_neg (by simpa using hb)]
    | cons c2 rest2 =>
      have hrest : trimTrailDashes (c2 :: rest2) = c2 :: rest2 := ih h
      rw [trimTrailDashes, hrest]

theorem collapseDashes_id (l : List Char) (h : noDoubleDash l = true) :
    collapseDashes l = l := by
  induction l using collapseDashes.induct with
  | case1 c1 c2 rest hab ih =>
    rw [noDoubleDash, Bool.and_eq_true] at h
    simp [hab.1, hab.2] at h
  | case2 c1 c2 rest hab ih =>
    rw [collapseDashes, if_neg hab]
    rw [noDoubleDash, Bool.and_eq_true] at h
    rw [ih h.2]
  | case3 l hl => exact collapseDashes_short l hl

theorem dashify_id (l : List Char)
    (h : ∀ c ∈ l, isSlugChar c = true ∨ c = '-') : dashify l = l := by
  unfold dashify
  induction l with
  | nil => rfl
  | cons c rest ih =>
    simp only [List.map_cons, List.cons.injEq]
    constructor
    · rcases h c (List.mem_cons_self _ _) with hs | hd
      · rw [pyLower_slug_id c hs, if_pos hs]
      · subst hd
        rw [pyLower_dash]
        rw [if_neg (by decide)]
    · exact ih fun d hd => h d (List.mem_cons_of_mem _ hd)

/-- C9: the slug deriver is deterministic (it is a pure function of its
input) and idempotent: applying `slugify` to its own output returns the
output unchanged. -/
theorem slugify_idempotent (s : String) :
    slugifyStr (slugifyStr s) = slugifyStr s := by
  have key : ∀ l : List Char, slugify (slugify l) = slugify l := by
    intro l
    have h1 : dashify (slugify l) = slugify l :=
      dashify_id _ (slugify_chars l)
    have hnodd : noDoubleDash (slugify l) = true := by
      unfold slugify
      exact noDoubleDash_trimTrailDashes _
        (noDoubleDash_dropWhile _ _ (noDoubleDash_collapseDashes _))
    have h2 : collapseDashes (slugify l) = slugify l :=
      collapseDashes_id _ hnodd
    have h3 : trimLeadDashes (slugify l) = slugify l := by
      refine trimLeadDashes_id _ ?_
      unfold slugify
      exact headNotDash_trimTrailDashes _ (headNotDash_dropDashes _)
    have h4 : trimTrailDashes (slugify l) = slugify l := by
      refine trimTrailDashes_id _ ?_
      unfold slugify
      exact lastNotDash_trimTrailDashes _
    calc slugify (slugify l)
        = trimTrailDashes (trimLeadDashes (collapseDashes (dashify (slugify l)))) := rfl
      _ = slugify l := by rw [h1, h2, h3, h4]
  unfold slugifyStr
  rw [key s.data]

/-- A `User` document, restricted to the fields read by the scheduler job
`cleanup_unactivated_accounts` plus an identifier. -/
structure SchedUser where
  uid : Nat
  is_active : Bool
  email_confirmation_token : Option String
  email_confirmation_token_created : Option Int
  deriving DecidableEq

/-- An `Event` document, restricted to the fields carried by the expiry job
plus the fields the job must not touch. -/
structure SchedEvent where
  name_en : String
  slug : String
  end_date : Int
  is_active : Bool
  deriving DecidableEq

/-- The filter of `cleanup_unactivated_accounts` in
`backend/src/config/scheduler.py`: `is_active=False`,
`email_confirmation_token__ne=None`,
`email_confirmation_token_created__lte=deadline`. A missing creation
timestamp never satisfies a typed `lte` comparison in MongoDB. -/
def cleanupMatches (deadline : Int) (u : SchedUser) : Bool :=
  u.is_active = false && u.email_confirmation_token.isSome &&
    (match u.email_confirmation_token_created with
      | some t => decide (t ≤ deadline)
      | none => false)

/-- `cleanup_unactivated_accounts` run at time `now` (seconds): deletes the
accounts matched with `deadline = now - 48 hours`. -/
def cleanup_unactivated_accounts (now : Int) (users : List SchedUser) :
    List SchedUser :=
  users.filter fun u => !(cleanupMatches (now - 172800) u)

/-- The filter of `deactivate_past_events`: `end_date__lt=current_time`,
`is_active=True`. -/
def expiryMatches (now : Int) (e : SchedEvent) : Bool :=
  decide (e.end_date < now) && e.is_active

/-- `deactivate_past_events` run at time `now`: the bulk
`update(is_active=False)` over the matched events, leaving every other
document and every other field untouched. -/
def deactivate_past_events (now : Int) (events : List SchedEvent) :
    List SchedEvent :=
  events.map fun e =>
    if expiryMatches now e then { e with is_active := false } else e

/-- The two job functions defined in `backend/src/config/scheduler.py`. -/
inductive SchedJob where
  | deactivatePastEventsJob
  | cleanupUnactivatedAccountsJob
  deriving DecidableEq

/-- The persisted store seen by the scheduler. -/
structure SchedStore where
  events : List SchedEvent
  users : List SchedUser
  deriving DecidableEq

/-- The jobs `init_scheduler` actually registers with the daily cron
trigger: the source contains exactly one `scheduler.add_job` call, for
`deactivate_past_events`. -/
def registeredDailyJobs : List SchedJob := [SchedJob.deactivatePastEventsJob]

def runJob (now : Int) (st : SchedStore) (j : SchedJob) : SchedStore :=
  match j with
  | SchedJob.deactivatePastEventsJob =>
    { st with events := deactivate_past_events now st.events }
  | SchedJob.cleanupUnactivatedAccountsJob =>
    { st with users := cleanup_unactivated_accounts now st.users }

/-- One firing of the daily cron trigger: every registered job runs. -/
def runDailyJobs (now : Int) (st : SchedStore) : SchedStore :=
  registeredDailyJobs.foldl (runJob now) st

/-- An account that is unactivated, still holds a confirmation token, and
whose token is 72 hours old at time 1000000. -/
def staleAccount : SchedUser :=
  { uid := 7, is_active := false,
    email_confirmation_token := some "tok",
    email_confirmation_token_created := some (1000000 - 259200) }

/-- C2: the claim is right about which accounts `cleanup_unactivated_accounts`
would delete, but wrong that the daily scheduled job deletes them:
`init_scheduler` registers only `deactivate_past_events`, so the daily run
leaves a 72-hour-old unactivated account in place even though the cleanup
filter matches it (the docstrings of both functions say the cleanup runs
daily at midnight). -/
theorem scheduler_never_runs_account_cleanup :
    cleanupMatches (1000000 - 172800) staleAccount = true ∧
    cleanup_unactivated_accounts 1000000 [staleAccount] = [] ∧
    (runDailyJobs 1000000 { events := [], users := [staleAccount] }).users
      = [staleAccount] ∧
    SchedJob.cleanupUnactivatedAccountsJob ∉ registeredDailyJobs := by
  refine ⟨by decide, by decide, by decide, by decide⟩

theorem mem_zip_self_map {α : Type} (f : α → α) (l : List α)
    (p : α × α) (hp : p ∈ l.zip (l.map f)) : p.2 = f p.1 := by
  induction l with
  | nil => simp [List.zip] at hp
  | cons x rest ih =>
    simp only [List.map_cons, List.zip_cons_cons] at hp
    rcases List.mem_cons.mp hp with hx | hx
    · rw [hx]
    · exact ih hx

theorem expiry_step_idem (now : Int) (e : SchedEvent) :
    (if expiryMatches now (if expiryMatches now e then { e with is_active := false } else e)
        then { (if expiryMatches now e then { e with is_active := false } else e) with
          is_active := false }
        else (if expiryMatches now e then { e with is_active := false } else e))
      = (if expiryMatches now e then { e with is_active := false } else e) := by
  cases hm : expiryMatches now e with
  | false => simp [hm]
  | true =>
    have hm2 : expiryMatches now { e with is_active := false } = false := by
      unfold expiryMatches
      simp
    simp [hm, hm2]

/-- C4: one run of the event-expiry job keeps the collection the same
length, replaces exactly the active events with `end_date` strictly before
`now` by the same document with `is_active := false`, leaves every other
event untouched, and running the job again immediately changes nothing. -/
theorem deactivate_past_events_exact (now : Int) (events : List SchedEvent) :
    (deactivate_past_events now events).length = events.length ∧
    (∀ p ∈ events.zip (deactivate_past_events now events),
      (p.1.end_date < now ∧ p.1.is_active = true →
        p.2 = { p.1 with is_active := false }) ∧
      (¬(p.1.end_date < now) ∨ p.1.is_active = false → p.2 = p.1)) ∧
    deactivate_past_events now (deactivate_past_events now events)
      = deactivate_past_events now events := by
  refine ⟨List.length_map _ _, ?_, ?_⟩
  · intro p hp
    have hp2 := mem_zip_self_map _ events p hp
    constructor
    · intro hcond
      have hm : expiryMatches now p.1 = true := by
        unfold expiryMatches
        simp [hcond.1, hcond.2]
      rw [hp2, if_pos hm]
    · intro hcond
      have hm : expiryMatches now p.1 = false := by
        unfold expiryMatches
        rcases hcond with hc | hc
        · simp [hc]
        · simp [hc]
      rw [hp2, if_neg (by simp [hm])]
  · unfold deactivate_past_events
    rw [List.map_map]
    refine List.map_congr_left fun e _ => ?_
    exact expiry_step_idem now e

/-- An already-ended active event and a future event, for the C4 witness. -/
def c4Old : SchedEvent :=
  { name_en := "Old Show", slug := "old-show", end_date := 5, is_active := true }

def c4New : SchedEvent :=
  { name_en := "New Show", slug := "new-show", end_date := 20, is_active := true }

/-- Witness for C4 at time 10: the ended event is deactivated, the future
event untouched, and a second run changes nothing. -/
theorem deactivate_past_events_exact_witness :
    deactivate_past_events 10 [c4Old, c4New]
      = [{ c4Old with is_active := false }, c4New] ∧
    deactivate_past_events 10 (deactivate_past_events 10 [c4Old, c4New])
      = deactivate_past_events 10 [c4Old, c4New] ∧
    (c4New, c4New).2 = c4New :=
  ⟨by decide, (deactivate_past_events_exact 10 [c4Old, c4New]).2.2,
    ((deactivate_past_events_exact 10 [c4Old, c4New]).2.1 (c4New, c4New)
      (by decide)).2 (Or.inl (by decide))⟩

/-- A coordinate pair as returned by the HERE gateway and stored in
`location`; the code only compares pairs element-wise. -/
structure GeoPoint where
  lon : Int
  lat : Int
  deriving DecidableEq

/-- A `Venue` document, with references carried as the referenced
documents' identifying names: `venue_type` is the VenueType `name_en`
(stored lower-cased), `city` is the City `name_en` and `city_name_he`
its Hebrew name, read when building the geocoding query. -/
structure Venue where
  name_en : String
  name_ru : String
  name_he : String
  address_en : String
  address_ru : String
  address_he : String
  description_en : String
  description_ru : String
  description_he : String
  venue_type : String
  city : String
  city_name_he : String
  location : GeoPoint
  phone : Option String
  website : Option String
  email : Option String
  is_active : Bool
  image_path : String
  slug : String
  deriving DecidableEq

/-- An event as read by the venue guard query
`Event.objects(venue=venue, is_active=True).count()`; the reference is
modelled by the venue slug. -/
structure EventRef where
  venue_slug : String
  is_active : Bool
  deriving DecidableEq

/-- The state a venue request reads: the external gateways (success path)
and the relevant collections. `translate` takes text, source and target
language codes; `cities` pairs each city `name_en` with its `name_he`;
`geonames` returns the (en, ru, he) names of a validated city. -/
structure Env where
  geocode : String → GeoPoint
  translate : String → String → String → String
  geonames : String → Option (String × String × String)
  venueTypes : List String
  cities : List (String × String)
  venues : List Venue
  events : List EventRef

/-- `Event.objects(venue=venue, is_active=True).count()`. -/
def activeEventsCount (env : Env) (venue : Venue) : Nat :=
  (env.events.filter fun e => e.venue_slug == venue.slug && e.is_active).length

/-- Python `str.lower` over a whole string. -/
def pyLowerStr (s : String) : String := String.mk (s.data.map pyLower)

/-- Python `str.endswith`, evaluated over the character list. -/
def strEndsWith (s suffix : String) : Bool :=
  List.isSuffixOf suffix.data s.data

/-- The path returned by `rename_image_folder(kind, old_slug, new_slug)`:
`IMAGE_PATHS[kind].format(slug=new_slug, filename=new_slug + ".png")`.
The filesystem rename itself is abstracted into the rename-call counter. -/
def renamedImagePath (kind slug : String) : String :=
  "/uploads/img/" ++ kind ++ "/" ++ slug ++ "/" ++ slug ++ ".png"

def deactivateGuardMsg : String :=
  "Cannot deactivate venue with active events. Please deactivate all events first."

/-- Body of a PATCH venue request: `none` marks an absent key. The
modelling covers JSON requests that already passed `validate_venue_data`
(pattern validation rejects malformed strings with a 400 before this code
runs) and carry no file upload. -/
structure VenueUpdateData where
  name_en : Option String := none
  name_ru : Option String := none
  name_he : Option String := none
  address_en : Option String := none
  address_ru : Option String := none
  address_he : Option String := none
  description_en : Option String := none
  description_ru : Option String := none
  description_he : Option String := none
  venue_type_en : Option String := none
  city_en : Option String := none
  phone : Option String := none
  website : Option String := none
  email : Option String := none
  is_active : Option Bool := none

/-- The `case "is_active"` arm of the `part_update_existing_venue` loop:
the referential guard runs only on an actual `true → false` transition and
raises 409 while the venue still has active events. -/
def stepIsActive (env : Env) (venue : Venue) (d : VenueUpdateData) :
    Except UErr (Option Bool) :=
  match d.is_active with
  | none => Except.ok none
  | some v =>
    if v ≠ venue.is_active then
      if v = false ∧ venue.is_active = true then
        if 0 < activeEventsCount env venue then
          Except.error ⟨deactivateGuardMsg, 409⟩
        else Except.ok (some v)
      else Except.ok (some v)
    else Except.ok none

/-- The `case "venue_type_en"` arm: look the type up by its lower-cased
English name, 404 when absent, and record a change only on a real diff. -/
def stepVenueType (env : Env) (venue : Venue) (d : VenueUpdateData) :
    Except UErr (Option String) :=
  match d.venue_type_en with
  | none => Except.ok none
  | some v =>
    let lowered := pyLowerStr v
    if env.venueTypes.contains lowered then
      if venue.venue_type ≠ lowered then Except.ok (some lowered)
      else Except.ok none
    else Except.error ⟨"Venue type not found", 404⟩

/-- The `case "city_en"` arm: 404 when the city does not exist, diff
otherwise; a change carries the new city name pair. -/
def stepCity (env : Env) (venue : Venue) (d : VenueUpdateData) :
    Except UErr (Option (String × String)) :=
  match d.city_en with
  | none => Except.ok none
  | some v =>
    match env.cities.find? fun p => p.1 == v with
    | none => Except.error ⟨"City not found", 404⟩
    | some city =>
      if venue.city ≠ city.1 then Except.ok (some city)
      else Except.ok none

/-- Result of the `case "address_en"` arm. -/
structure AddrStep where
  set_address_en : Option String
  set_location : Option GeoPoint
  geocodeCalls : Nat
  deriving DecidableEq

/-- The `case "address_en"` arm: geocode only when the submitted value
differs from the stored one (the query is built from the stored Hebrew
address and the stored city), and set `location` only when the returned
pair differs from the stored pair. -/
def stepAddress (env : Env) (venue : Venue) (d : VenueUpdateData) : AddrStep :=
  match d.address_en with
  | none => ⟨none, none, 0⟩
  | some v =>
    if v ≠ venue.address_en then
      let loc := env.geocode (venue.address_he ++ ", " ++ venue.city_name_he)
      if venue.location ≠ loc then ⟨some v, some loc, 1⟩
      else ⟨some v, none, 1⟩
    else ⟨none, none, 0⟩

/-- Result of the `case "name_en"` arm. -/
structure NameStep where
  set_name_en : Option String
  set_slug : Option String
  set_image_path : Option String
  renameCalls : Nat
  deriving DecidableEq

/-- The `case "name_en"` arm: on a real change regenerate the slug and,
unless the image is the default asset, rename the asset folder once. -/
def stepName (venue : Venue) (d : VenueUpdateData) : NameStep :=
  match d.name_en with
  | none => ⟨none, none, none, 0⟩
  | some v =>
    if v ≠ venue.name_en then
      let newSlug := slugifyStr v
      if ¬ strEndsWith venue.image_path "default.png" then
        ⟨some v, some newSlug, some (renamedImagePath "venues" newSlug), 1⟩
      else ⟨some v, some newSlug, none, 0⟩
    else ⟨none, none, none, 0⟩

/-- The default `case _` arm for a plain text field. -/
def diffField (cur : String) (sub : Option String) : Option String :=
  match sub with
  | none => none
  | some v => if v ≠ cur then some v else none

/-- The default `case _` arm for an optional text field (phone, website,
email are `None` until set). -/
def diffOptField (cur : Option String) (sub : Option String) : Option String :=
  match sub with
  | none => none
  | some v => if some v ≠ cur then some v else none

/-- Result of a successful venue update: the venue written by the single
`update_one` call, and how many external geocode and asset-rename calls
the request performed. -/
structure VenueUpdateOutcome where
  venue : Venue
  geocodeCalls : Nat
  renameCalls : Nat
  deriving DecidableEq

/-- `part_update_existing_venue` from
`backend/src/controllers/venues_controllers.py`. The Python loop iterates
over the submitted keys in request order; every arm only reads the stored
venue and appends to `update_data`, and the single `update_one` write runs
after the whole loop, so an error raised in any arm aborts the request
with no write regardless of key order. The arms are modelled here in the
source's `match` order. -/
def part_update_existing_venue (env : Env) (venue : Venue)
    (d : VenueUpdateData) : Except UErr VenueUpdateOutcome :=
  match stepIsActive env venue d with
  | Except.error e => Except.error e
  | Except.ok sIs =>
    match stepVenueType env venue d with
    | Except.error e => Except.error e
    | Except.ok sVt =>
      match stepCity env venue d with
      | Except.error e => Except.error e
      | Except.ok sCity =>
        let sAddr := stepAddress env venue d
        let sName := stepName venue d
        let newVenue : Venue := { venue with
          is_active := sIs.getD venue.is_active
          venue_type := sVt.getD venue.venue_type
          city := (sCity.map Prod.fst).getD venue.city
          city_name_he := (sCity.map Prod.snd).getD venue.city_name_he
          address_en := sAddr.set_address_en.getD venue.address_en
          location := sAddr.set_location.getD venue.location
          name_en := sName.set_name_en.getD venue.name_en
          slug := sName.set_slug.getD venue.slug
          image_path := sName.set_image_path.getD venue.image_path
          name_ru := (diffField venue.name_ru d.name_ru).getD venue.name_ru
          name_he := (diffField venue.name_he d.name_he).getD venue.name_he
          address_ru := (diffField venue.address_ru d.address_ru).getD venue.address_ru
          address_he := (diffField venue.address_he d.address_he).getD venue.address_he
          description_en :=
            (diffField venue.description_en d.description_en).getD venue.description_en
          description_ru :=
            (diffField venue.description_ru d.description_ru).getD venue.description_ru
          description_he :=
            (diffField venue.description_he d.description_he).getD venue.description_he
          phone := (diffOptField venue.phone d.phone).map some |>.getD venue.phone
          website := (diffOptField venue.website d.website).map some |>.getD venue.website
          email := (diffOptField venue.email d.email).map some |>.getD venue.email }
        Except.ok ⟨newVenue, sAddr.geocodeCalls, sName.renameCalls⟩

/-- Body of a PUT venue request: every updatable key is required (missing
keys 400 before this code runs), contact fields are validated strings. -/
structure VenueFullData where
  name_en : String
  name_ru : String
  name_he : String
  address_en : String
  address_ru : String
  address_he : String
  description_en : String
  description_ru : String
  description_he : String
  venue_type_en : String
  city_en : String
  phone : String
  website : String
  email : String
  is_active : Bool
  deriving DecidableEq

/-- `full_update_existing_venue`: the deactivation guard runs first, then
the 404 lookups, then the slug is computed once, the asset folder renamed
when the slug changed and the image is not the default, the address
re-geocoded only when `address_en` changed (from the new Hebrew address
and the new city), `location` overwritten only when the coordinates
differ, and all fields written in one `update_one`. -/
def full_update_existing_venue (env : Env) (venue : Venue)
    (d : VenueFullData) : Except UErr VenueUpdateOutcome :=
  if d.is_active = false ∧ venue.is_active = true ∧
      0 < activeEventsCount env venue then
    Except.error ⟨deactivateGuardMsg, 409⟩
  else if ¬ env.venueTypes.contains (pyLowerStr d.venue_type_en) then
    Except.error ⟨"Venue type not found", 404⟩
  else
    match env.cities.find? fun p => p.1 == d.city_en with
    | none => Except.error ⟨"City not found", 404⟩
    | some city =>
      let newSlug := slugifyStr d.name_en
      let renameHappens :=
        venue.slug ≠ newSlug ∧ ¬ strEndsWith venue.image_path "default.png"
      let imagePath :=
        if renameHappens then renamedImagePath "venues" newSlug
        else venue.image_path
      let renameCalls := if renameHappens then 1 else 0
      let addrChanged := venue.address_en ≠ d.address_en
      let newLoc := env.geocode (d.address_he ++ ", " ++ city.2)
      let location :=
        if addrChanged ∧ venue.location ≠ newLoc then newLoc
        else venue.location
      let geocodeCalls := if addrChanged then 1 else 0
      Except.ok ⟨{ venue with
        name_en := d.name_en
        name_ru := d.name_ru
        name_he := d.name_he
        description_en := d.description_en
        description_ru := d.description_ru
        description_he := d.description_he
        address_en := d.address_en
        address_ru := d.address_ru
        address_he := d.address_he
        phone := some d.phone
        website := some d.website
        email := some d.email
        is_active := d.is_active
        venue_type := pyLowerStr d.venue_type_en
        city := city.1
        city_name_he := city.2
        slug := newSlug
        image_path := imagePath
        location := location }, geocodeCalls, renameCalls⟩

/-- The venue visible after a call: an error response leaves the stored
document untouched. -/
def venueAfterPart (env : Env) (venue : Venue) (d : VenueUpdateData) : Venue :=
  match part_update_existing_venue env venue d with
  | Except.ok o => o.venue
  | Except.error _ => venue

def venueAfterFull (env : Env) (venue : Venue) (d : VenueFullData) : Venue :=
  match full_update_existing_venue env venue d with
  | Except.ok o => o.venue
  | Except.error _ => venue

/-- C3: any attempt, by partial or by full update, to flip a venue's
`is_active` from true to false while at least one event referencing it is
active fails with the 409 conflict error, no write happens, and the venue
is unchanged after the failed call. -/
theorem venue_deactivation_guard (env : Env) (venue : Venue)
    (dPart : VenueUpdateData) (dFull : VenueFullData)
    (hactive : venue.is_active = true)
    (hevents : 0 < activeEventsCount env venue)
    (hPartReq : dPart.is_active = some false)
    (hFullReq : dFull.is_active = false) :
    part_update_existing_venue env venue dPart
        = Except.error ⟨deactivateGuardMsg, 409⟩ ∧
    venueAfterPart env venue dPart = venue ∧
    full_update_existing_venue env venue dFull
        = Except.error ⟨deactivateGuardMsg, 409⟩ ∧
    venueAfterFull env venue dFull = venue := by
  have hstep : stepIsActive env venue dPart
      = Except.error ⟨deactivateGuardMsg, 409⟩ := by
    unfold stepIsActive
    rw [hPartReq]
    simp [hactive, hevents]
  have hpart : part_update_existing_venue env venue dPart
      = Except.error ⟨deactivateGuardMsg, 409⟩ := by
    unfold part_update_existing_venue
    rw [hstep]
  have hfull : full_update_existing_venue env venue dFull
      = Except.error ⟨deactivateGuardMsg, 409⟩ := by
    unfold full_update_existing_venue
    rw [if_pos ⟨hFullReq, hactive, hevents⟩]
  refine ⟨hpart, ?_, hfull, ?_⟩
  · unfold venueAfterPart
    rw [hpart]
  · unfold venueAfterFull
    rw [hfull]

/-- A concrete venue used by several witnesses. -/
def testVenue : Venue :=
  { name_en := "Grand Hall", name_ru := "Гранд Холл", name_he := "גרנד הול",
    address_en := "1 Main St", address_ru := "Мейн 1", address_he := "מיין 1",
    description_en := "A big concert hall",
    description_ru := "Большой концертный зал",
    description_he := "אולם קונצרטים גדול",
    venue_type := "hall", city := "Haifa", city_name_he := "חיפה",
    location := ⟨34, 32⟩, phone := none, website := none, email := none,
    is_active := true,
    image_path := "/uploads/img/venues/default/default.png",
    slug := "grand-hall" }

/-- A concrete environment: one venue type, one city, one active event
referencing `testVenue`, and gateways returning fixed values. -/
def testEnv : Env :=
  { geocode := fun _ => ⟨35, 33⟩,
    translate := fun s _ _ => s,
    geonames := fun _ => none,
    venueTypes := ["hall"],
    cities := [("Haifa", "חיפה")],
    venues := [testVenue],
    events := [⟨"grand-hall", true⟩] }

/-- A full-update body resubmitting `testVenue` with `is_active := false`. -/
def testFullData : VenueFullData :=
  { name_en := "Grand Hall", name_ru := "Гранд Холл", name_he := "גרנד הול",
    address_en := "1 Main St", address_ru := "Мейн 1", address_he := "מיין 1",
    description_en := "A big concert hall",
    description_ru := "Большой концертный зал",
    description_he := "אולם קונצרטים גדול",
    venue_type_en := "Hall", city_en := "Haifa",
    phone := "0501234567", website := "https://grand.example.com",
    email := "hall@example.com", is_active := false }

/-- Witness for C3: deactivating `testVenue` while its event is active
fails with 409 on both endpoints and leaves the venue unchanged. -/
theorem venue_deactivation_guard_witness :
    part_update_existing_venue testEnv testVenue
        { is_active := some false } = Except.error ⟨deactivateGuardMsg, 409⟩ ∧
    venueAfterPart testEnv testVenue { is_active := some false } = testVenue ∧
    full_update_existing_venue testEnv testVenue testFullData
        = Except.error ⟨deactivateGuardMsg, 409⟩ ∧
    venueAfterFull testEnv testVenue testFullData = testVenue :=
  venue_deactivation_guard testEnv testVenue { is_active := some false }
    testFullData rfl (by decide) rfl rfl

theorem stepAddress_changed (env : Env) (venue : Venue) (d : VenueUpdateData)
    (v : String) (hv : d.address_en = some v) (hne : v ≠ venue.address_en) :
    stepAddress env venue d =
      if venue.location
          ≠ env.geocode (venue.address_he ++ ", " ++ venue.city_name_he)
      then ⟨some v,
        some (env.geocode (venue.address_he ++ ", " ++ venue.city_name_he)), 1⟩
      else ⟨some v, none, 1⟩ := by
  unfold stepAddress
  rw [hv]
  dsimp only
  rw [if_pos hne]

theorem stepAddress_unchanged (env : Env) (venue : Venue) (d : VenueUpdateData)
    (h : ¬ ∃ v, d.address_en = some v ∧ v ≠ venue.address_en) :
    stepAddress env venue d = ⟨none, none, 0⟩ := by
  unfold stepAddress
  cases hda : d.address_en with
  | none => rfl
  | some v =>
    have hveq : ¬ v ≠ venue.address_en := fun hne => h ⟨v, hda, hne⟩
    dsimp only
    rw [if_neg hveq]

/-- C5: in a partial venue update, the geocoding gateway is invoked exactly
when the submitted `address_en` differs from the stored one, and the stored
`location` is overwritten exactly when the returned coordinate pair
differs from the stored pair; in particular an update whose submitted
fields equal stored state makes zero geocoding calls and keeps `location`. -/
theorem venue_geocode_exactly_on_address_change (env : Env) (venue : Venue)
    (d : VenueUpdateData)
    (hIs : ∃ x, stepIsActive env venue d = Except.ok x)
    (hVt : ∃ x, stepVenueType env venue d = Except.ok x)
    (hCity : ∃ x, stepCity env venue d = Except.ok x) :
    ∃ o, part_update_existing_venue env venue d = Except.ok o ∧
      ((∃ v, d.address_en = some v ∧ v ≠ venue.address_en) →
        o.geocodeCalls = 1 ∧
        (venue.location
            ≠ env.geocode (venue.address_he ++ ", " ++ venue.city_name_he) →
          o.venue.location
            = env.geocode (venue.address_he ++ ", " ++ venue.city_name_he)) ∧
        (venue.location
            = env.geocode (venue.address_he ++ ", " ++ venue.city_name_he) →
          o.venue.location = venue.location)) ∧
      ((¬ ∃ v, d.address_en = some v ∧ v ≠ venue.address_en) →
        o.geocodeCalls = 0 ∧ o.venue.location = venue.location) := by
  obtain ⟨sIs, hIs⟩ := hIs
  obtain ⟨sVt, hVt⟩ := hVt
  obtain ⟨sCity, hCity⟩ := hCity
  unfold part_update_existing_venue
  rw [hIs, hVt, hCity]
  refine ⟨_, rfl, ?_, ?_⟩
  · rintro ⟨v, hv, hne⟩
    rw [stepAddress_changed env venue d v hv hne]
    by_cases hloc : venue.location
        ≠ env.geocode (venue.address_he ++ ", " ++ venue.city_name_he)
    · rw [if_pos hloc]
      exact ⟨rfl, fun _ => rfl, fun heq => absurd heq hloc⟩
    · rw [if_neg hloc]
      exact ⟨rfl, fun hne2 => absurd hne2 hloc, fun _ => rfl⟩
  · intro hno
    rw [stepAddress_unchanged env venue d hno]
    exact ⟨rfl, rfl⟩

/-- Witness for C5: submitting a changed address on `testVenue` makes one
geocoding call and overwrites the location with the returned pair. -/
theorem venue_geocode_witness :
    ∃ o, part_update_existing_venue testEnv testVenue
        { address_en := some "2 Main St" } = Except.ok o ∧
      o.geocodeCalls = 1 ∧ o.venue.location = ⟨35, 33⟩ := by
  obtain ⟨o, heq, hch, _⟩ := venue_geocode_exactly_on_address_change testEnv
    testVenue { address_en := some "2 Main St" }
    ⟨none, rfl⟩ ⟨none, rfl⟩ ⟨none, rfl⟩
  obtain ⟨hcalls, hdiff, _⟩ := hch ⟨"2 Main St", rfl, by decide⟩
  exact ⟨o, heq, hcalls, hdiff (by decide)⟩

/-- The date chronology checks of `validate_event_data`
(`backend/src/utils/pre_mongo_validators.py`): reject when
`end_date < start_date`, then reject when the end is not strictly in the
future (`is_valid_end_time` compares the date parts and then the time
parts, which on naive datetimes is exactly the full comparison `end > now`). -/
def validateEventDates (now s e : Int) : Except UErr Unit :=
  if e < s then Except.error ⟨"End date must be after start date.", 400⟩
  else if ¬ (now < e) then
    Except.error ⟨"Event cannot end in the past or before current time.", 400⟩
  else Except.ok ()

/-- The date check in `Event.clean` (`backend/src/models/event.py`), run by
mongoengine on every save: it raises exactly when `end_date < start_date`. -/
def eventCleanDatesOk (s e : Int) : Bool := !(decide (e < s))

/-- Counterexample to C8: a submission whose `end_date` equals its
`start_date` (both at time 100, submitted at now = 0) passes
`validate_event_data` and passes `Event.clean`, so the document is saved
even though `start_date < end_date` fails. -/
theorem event_equal_dates_accepted :
    validateEventDates 0 100 100 = Except.ok () ∧
    eventCleanDatesOk 100 100 = true ∧
    ¬ ((100 : Int) < 100) := by
  refine ⟨rfl, by decide, by decide⟩

/-- C8 amended: every persisted Event satisfies `start_date ≤ end_date`
(not the strict inequality): a submission with `end_date` strictly before
`start_date` fails validation before save, a validated submission
satisfies `start_date ≤ end_date` and ends in the future, and the model
layer accepts exactly `start_date ≤ end_date`. -/
theorem event_dates_non_strict (now s e : Int) :
    (e < s → validateEventDates now s e
        = Except.error ⟨"End date must be after start date.", 400⟩) ∧
    (validateEventDates now s e = Except.ok () → s ≤ e ∧ now < e) ∧
    (eventCleanDatesOk s e = true ↔ s ≤ e) := by
  refine ⟨?_, ?_, ?_⟩
  · intro hlt
    unfold validateEventDates
    rw [if_pos hlt]
  · intro hok
    unfold validateEventDates at hok
    by_cases hlt : e < s
    · rw [if_pos hlt] at hok
      exact absurd hok (by simp)
    · by_cases hfut : now < e
      · exact ⟨Int.not_lt.mp hlt, hfut⟩
      · rw [if_neg hlt, if_pos hfut] at hok
        exact absurd hok (by simp)
  · unfold eventCleanDatesOk
    constructor
    · intro h
      simp only [Bool.not_eq_eq_eq_not, Bool.not_true, decide_eq_false_iff_not] at h
      exact Int.not_lt.mp h
    · intro h
      simp [Int.not_lt.mpr h]

/-- Witness for C8 amended: reversed dates are rejected, equal dates are
validated with `start_date ≤ end_date`. -/
theorem event_dates_non_strict_witness :
    validateEventDates 0 100 50
        = Except.error ⟨"End date must be after start date.", 400⟩ ∧
    ((100 : Int) ≤ 100 ∧ (0 : Int) < 100) ∧
    eventCleanDatesOk 40 40 = true :=
  ⟨(event_dates_non_strict 0 100 50).1 (by decide),
   (event_dates_non_strict 0 100 100).2.1 rfl,
   (event_dates_non_strict 0 40 40).2.2.mpr (by decide)⟩

/-- An `Event` document, with references carried as the referenced
documents' slugs. -/
structure EventEnt where
  name_en : String
  name_ru : String
  name_he : String
  description_en : String
  description_ru : String
  description_he : String
  event_type : String
  venue_slug : String
  start_date : Int
  end_date : Int
  price_type : String
  price_amount : Option Int
  is_active : Bool
  image_path : String
  slug : String
  deriving DecidableEq

/-- What an event request reads: the referenced collections and the pure
date formatter `convert_to_local` + `strftime` used to build slug dates. -/
structure EventEnv where
  eventTypes : List String
  venueSlugs : List String
  fmtLocalDate : Int → String

/-- Body of a PATCH event request (JSON, already past pattern checks). -/
structure EventUpdateData where
  name_en : Option String := none
  name_ru : Option String := none
  name_he : Option String := none
  description_en : Option String := none
  description_ru : Option String := none
  description_he : Option String := none
  event_type_slug : Option String := none
  venue_slug : Option String := none
  start_date : Option Int := none
  end_date : Option Int := none
  price_type : Option String := none
  price_amount : Option Int := none
  is_active : Option Bool := none

/-- The date normalisation at the head of `part_update_existing_event`:
when either date is submitted, the other is filled from the stored event,
so validation always sees both or neither. -/
def normalizedDates (event : EventEnt) (d : EventUpdateData) :
    Option (Int × Int) :=
  match d.start_date, d.end_date with
  | none, none => none
  | some s, none => some (s, event.end_date)
  | none, some e => some (event.start_date, e)
  | some s, some e => some (s, e)

def priceTypesList : List String := ["free", "tba", "fixed", "starting_from"]

/-- The price checks of `validate_event_data`, run when `price_type` is
part of the submitted data. -/
def validateEventPrice (pt : Option String) (amount : Option Int) :
    Except UErr Unit :=
  match pt with
  | none => Except.ok ()
  | some t =>
    if ¬ priceTypesList.contains t then
      Except.error ⟨"Invalid price type", 400⟩
    else if t = "fixed" ∨ t = "starting_from" then
      match amount with
      | none => Except.error
          ⟨"Price amount is required for fixed and starting_from price types.", 400⟩
      | some a =>
        if a < 0 then Except.error ⟨"Price amount cannot be negative.", 400⟩
        else Except.ok ()
    else if amount.isSome then
      Except.error ⟨"Price amount should not be set for free or TBA events.", 400⟩
    else Except.ok ()

/-- `validate_event_data` over a partial update body: date chronology when
both dates are present after normalisation, then the price logic. -/
def validateEventUpdate (now : Int) (event : EventEnt) (d : EventUpdateData) :
    Except UErr Unit :=
  match normalizedDates event d with
  | none => validateEventPrice d.price_type d.price_amount
  | some (s, e) =>
    match validateEventDates now s e with
    | Except.error err => Except.error err
    | Except.ok _ => validateEventPrice d.price_type d.price_amount

/-- The `case "event_type_slug"` arm: 404 when absent, diff otherwise. -/
def stepEventType (env : EventEnv) (event : EventEnt) (d : EventUpdateData) :
    Except UErr (Option String) :=
  match d.event_type_slug with
  | none => Except.ok none
  | some v =>
    if env.eventTypes.contains v then
      if event.event_type ≠ v then Except.ok (some v) else Except.ok none
    else Except.error ⟨"Event type not found", 404⟩

/-- The `case "venue_slug"` arm: 404 when absent, diff otherwise. -/
def stepEventVenue (env : EventEnv) (event : EventEnt) (d : EventUpdateData) :
    Except UErr (Option String) :=
  match d.venue_slug with
  | none => Except.ok none
  | some v =>
    if env.venueSlugs.contains v then
      if event.venue_slug ≠ v then Except.ok (some v) else Except.ok none
    else Except.error ⟨"Venue not found", 404⟩

/-- Result of a successful event update: the saved event, how many times a
slug was computed and how many asset-folder renames were requested. -/
structure EventUpdateOutcome where
  event : EventEnt
  slugRegens : Nat
  renameCalls : Nat
  deriving DecidableEq

/-- True when the submitted `name_en` differs from the stored one, i.e.
`"name_en"` enters `updated_params`. -/
def nameTrigger (event : EventEnt) (d : EventUpdateData) : Bool :=
  match d.name_en with
  | some v => v ≠ event.name_en
  | none => false

/-- True when a date was submitted and the normalised start date differs
from the stored one, i.e. `"start_date"` enters `updated_params`. -/
def startTrigger (event : EventEnt) (d : EventUpdateData) : Bool :=
  (normalizedDates event d).isSome &&
    ((normalizedDates event d).map Prod.fst).getD event.start_date
      ≠ event.start_date

/-- `part_update_existing_event` from
`backend/src/controllers/events_controllers.py`: normalise and validate
dates and price, run the lookup arms, apply the diffed fields via
`setattr`, then — only when at least one field actually changed — run the
slug block once: if `name_en` or `start_date` is among the changed fields
the slug is recomputed from the (possibly updated) name and formatted
start date, and when the new slug differs and the image is not the default
asset, the folder is renamed once and `image_path` follows. The loop
iterates submitted keys in request order; every arm is read-only until the
single `save()` after the loop, so errors abort with no write. -/
def part_update_existing_event (env : EventEnv) (now : Int) (event : EventEnt)
    (d : EventUpdateData) : Except UErr EventUpdateOutcome :=
  match validateEventUpdate now event d with
  | Except.error e => Except.error e
  | Except.ok _ =>
    match stepEventType env event d with
    | Except.error e => Except.error e
    | Except.ok sType =>
      match stepEventVenue env event d with
      | Except.error e => Except.error e
      | Except.ok sVenue =>
        let dates := normalizedDates event d
        let newStart := (dates.map Prod.fst).getD event.start_date
        let newEnd := (dates.map Prod.snd).getD event.end_date
        let e1 : EventEnt := { event with
          name_en := d.name_en.getD event.name_en
          name_ru := d.name_ru.getD event.name_ru
          name_he := d.name_he.getD event.name_he
          description_en := d.description_en.getD event.description_en
          description_ru := d.description_ru.getD event.description_ru
          description_he := d.description_he.getD event.description_he
          event_type := sType.getD event.event_type
          venue_slug := sVenue.getD event.venue_slug
          start_date := newStart
          end_date := newEnd
          price_type := d.price_type.getD event.price_type
          price_amount :=
            match d.price_amount with
            | some a => some a
            | none => event.price_amount
          is_active := d.is_active.getD event.is_active }
        if e1 = event then Except.ok ⟨event, 0, 0⟩
        else if nameTrigger event d || startTrigger event d then
          let nameForSlug :=
            match d.name_en with
            | some v => v
            | none => e1.name_en
          let newSlug :=
            slugifyStr (nameForSlug ++ "-" ++ env.fmtLocalDate newStart)
          if newSlug ≠ event.slug ∧
              ¬ strEndsWith e1.image_path "default.png" then
            let e2 : EventEnt := { e1 with
              slug := newSlug
              image_path := renamedImagePath "events" newSlug }
            Except.ok ⟨e2, 1, 1⟩
          else Except.ok ⟨{ e1 with slug := newSlug }, 1, 0⟩
        else Except.ok ⟨e1, 0, 0⟩

/-- Body of a PUT event request: every key required. -/
structure EventFullData where
  name_en : String
  name_ru : String
  name_he : String
  description_en : String
  description_ru : String
  description_he : String
  event_type_slug : String
  venue_slug : String
  start_date : Int
  end_date : Int
  price_type : String
  price_amount : Option Int
  is_active : Bool
  deriving DecidableEq

/-- `full_update_existing_event`: dates and price validated, both lookups
resolved, every field assigned, the slug recomputed once from the
submitted name and formatted start date, and the asset folder renamed at
most once when the slug changed and the image is not the default. -/
def full_update_existing_event (env : EventEnv) (now : Int) (event : EventEnt)
    (d : EventFullData) : Except UErr EventUpdateOutcome :=
  match validateEventDates now d.start_date d.end_date with
  | Except.error e => Except.error e
  | Except.ok _ =>
    match validateEventPrice (some d.price_type) d.price_amount with
    | Except.error e => Except.error e
    | Except.ok _ =>
      if ¬ env.eventTypes.contains d.event_type_slug then
        Except.error ⟨"Event type not found", 404⟩
      else if ¬ env.venueSlugs.contains d.venue_slug then
        Except.error ⟨"Venue not found", 404⟩
      else
        let newSlug :=
          slugifyStr (d.name_en ++ "-" ++ env.fmtLocalDate d.start_date)
        let renameHappens :=
          newSlug ≠ event.slug ∧ ¬ strEndsWith event.image_path "default.png"
        Except.ok ⟨{ event with
          name_en := d.name_en
          name_ru := d.name_ru
          name_he := d.name_he
          description_en := d.description_en
          description_ru := d.description_ru
          description_he := d.description_he
          event_type := d.event_type_slug
          venue_slug := d.venue_slug
          start_date := d.start_date
          end_date := d.end_date
          price_type := d.price_type
          price_amount := d.price_amount
          is_active := d.is_active
          slug := newSlug
          image_path :=
            if renameHappens then renamedImagePath "events" newSlug
            else event.image_path }, 1,
          if renameHappens then 1 else 0⟩

/-- C7: in any event update (partial or full) where `name_en` or
`start_date` actually changes, the slug is regenerated exactly once from
the possibly-updated name and the possibly-updated formatted start date;
the asset folder is renamed at most once, never when the image is the
default asset, and when it is renamed `image_path` follows the new slug —
regardless of how many other fields changed in the same call. -/
theorem event_slug_cascade (env : EventEnv) (now : Int) (event : EventEnt)
    (d : EventUpdateData) (df : EventFullData)
    (hval : validateEventUpdate now event d = Except.ok ())
    (hType : ∃ x, stepEventType env event d = Except.ok x)
    (hVenue : ∃ x, stepEventVenue env event d = Except.ok x)
    (htrig : (nameTrigger event d || startTrigger event d) = true)
    (hfval : validateEventDates now df.start_date df.end_date = Except.ok ())
    (hfprice : validateEventPrice (some df.price_type) df.price_amount
      = Except.ok ())
    (hftype : env.eventTypes.contains df.event_type_slug = true)
    (hfvenue : env.venueSlugs.contains df.venue_slug = true) :
    (∃ o, part_update_existing_event env now event d = Except.ok o ∧
      o.slugRegens = 1 ∧
      o.event.slug = slugifyStr
        ((match d.name_en with | some v => v | none => event.name_en)
          ++ "-" ++ env.fmtLocalDate
            (((normalizedDates event d).map Prod.fst).getD event.start_date)) ∧
      o.renameCalls ≤ 1 ∧
      (strEndsWith event.image_path "default.png" = true → o.renameCalls = 0) ∧
      (o.renameCalls = 1 →
        o.event.image_path = renamedImagePath "events" o.event.slug)) ∧
    (∃ o, full_update_existing_event env now event df = Except.ok o ∧
      o.slugRegens = 1 ∧
      o.event.slug
        = slugifyStr (df.name_en ++ "-" ++ env.fmtLocalDate df.start_date) ∧
      o.renameCalls ≤ 1 ∧
      (strEndsWith event.image_path "default.png" = true → o.renameCalls = 0) ∧
      (o.renameCalls = 1 →
        o.event.image_path = renamedImagePath "events" o.event.slug)) := by
  obtain ⟨sT, hT⟩ := hType
  obtain ⟨sV, hV⟩ := hVenue
  constructor
  · unfold part_update_existing_event
    rw [hval, hT, hV]
    dsimp only
    have hne : ¬ ({ event with
        name_en := d.name_en.getD event.name_en
        name_ru := d.name_ru.getD event.name_ru
        name_he := d.name_he.getD event.name_he
        description_en := d.description_en.getD event.description_en
        description_ru := d.description_ru.getD event.description_ru
        description_he := d.description_he.getD event.description_he
        event_type := sT.getD event.event_type
        venue_slug := sV.getD event.venue_slug
        start_date := ((normalizedDates event d).map Prod.fst).getD event.start_date
        end_date := ((normalizedDates event d).map Prod.snd).getD event.end_date
        price_type := d.price_type.getD event.price_type
        price_amount :=
          match d.price_amount with
          | some a => some a
          | none => event.price_amount
        is_active := d.is_active.getD event.is_active } : EventEnt) = event := by
      intro heq
      rcases Bool.or_eq_true _ _ |>.mp htrig with htr | htr
      · unfold nameTrigger at htr
        cases hda : d.name_en with
        | none => rw [hda] at htr; simp at htr
        | some v =>
          rw [hda] at htr
          simp only [ne_eq, decide_eq_true_eq] at htr
          have hfield := congrArg EventEnt.name_en heq
          simp only [hda, Option.getD_some] at hfield
          exact htr hfield
      · unfold startTrigger at htr
        rw [Bool.and_eq_true] at htr
        have hfield := congrArg EventEnt.start_date heq
        simp only [] at hfield
        have hd := htr.2
        simp only [ne_eq, decide_eq_true_eq] at hd
        exact hd hfield
    rw [if_neg hne, if_pos htrig]
    have hname : (match d.name_en with
        | some v => v
        | none => d.name_en.getD event.name_en)
        = (match d.name_en with | some v => v | none => event.name_en) := by
      cases d.name_en <;> rfl
    by_cases hrn : slugifyStr ((match d.name_en with
          | some v => v
          | none => d.name_en.getD event.name_en) ++ "-" ++
          env.fmtLocalDate
            (((normalizedDates event d).map Prod.fst).getD event.start_date))
          ≠ event.slug ∧
        ¬ strEndsWith event.image_path "default.png" = true
    · rw [if_pos hrn]
      refine ⟨_, rfl, rfl, ?_, ?_, ?_, ?_⟩
      · rw [hname]
      · exact Nat.le_refl 1
      · intro hdef
        exact absurd hdef hrn.2
      · intro _
        rfl
    · rw [if_neg hrn]
      refine ⟨_, rfl, rfl, ?_, ?_, ?_, ?_⟩
      · rw [hname]
      · exact Nat.zero_le 1
      · intro _
        rfl
      · intro hc
        simp at hc
  · unfold full_update_existing_event
    rw [hfval, hfprice]
    rw [if_neg (fun h => h hftype), if_neg (fun h => h hfvenue)]
    dsimp only
    by_cases hrn : slugifyStr (df.name_en ++ "-" ++
          env.fmtLocalDate df.start_date) ≠ event.slug ∧
        ¬ strEndsWith event.image_path "default.png" = true
    · simp only [if_pos hrn]
      exact ⟨_, rfl, rfl, rfl, Nat.le_refl 1,
        fun hdef => absurd hdef hrn.2, fun _ => rfl⟩
    · simp only [if_neg hrn]
      refine ⟨_, rfl, rfl, rfl, Nat.zero_le 1, fun _ => rfl, ?_⟩
      intro hc
      simp at hc

/-- A concrete event for the C7 witness. -/
def testEvent : EventEnt :=
  { name_en := "Rock Night", name_ru := "Рок Вечер", name_he := "ערב רוק",
    description_en := "A loud rock night",
    description_ru := "Громкий рок вечер",
    description_he := "ערב רוק רועש",
    event_type := "concert", venue_slug := "grand-hall",
    start_date := 100, end_date := 200,
    price_type := "free", price_amount := none, is_active := true,
    image_path := "/uploads/img/events/default/default.png",
    slug := "rock-night-2025-01-01-20-00" }

def testEventEnv : EventEnv :=
  { eventTypes := ["concert"], venueSlugs := ["grand-hall"],
    fmtLocalDate := fun _ => "2025-01-01-20-00" }

def testEventFull : EventFullData :=
  { name_en := "Polka Night", name_ru := "Вечер польки", name_he := "ערב פולקה",
    description_en := "A polka dance night",
    description_ru := "Вечер танцев польки",
    description_he := "ערב ריקודי פולקה",
    event_type_slug := "concert", venue_slug := "grand-hall",
    start_date := 100, end_date := 200,
    price_type := "free", price_amount := none, is_active := true }

/-- Witness for C7: renaming `testEvent` regenerates the slug once from the
new name and the formatted start date, with no asset rename because the
image is the default asset. -/
theorem event_slug_cascade_witness :
    ∃ o, part_update_existing_event testEventEnv 50 testEvent
        { name_en := some "Jazz Night" } = Except.ok o ∧
      o.slugRegens = 1 ∧
      o.event.slug = slugifyStr ("Jazz Night" ++ "-" ++ "2025-01-01-20-00") ∧
      o.renameCalls = 0 := by
  obtain ⟨⟨o, ho, hreg, hslug, _, hdef, _⟩, _⟩ :=
    event_slug_cascade testEventEnv 50 testEvent
      { name_en := some "Jazz Night" } testEventFull rfl ⟨none, rfl⟩
      ⟨none, rfl⟩ (by decide) rfl rfl (by decide) (by decide)
  refine ⟨o, ho, hreg, ?_, hdef (by decide)⟩
  rw [hslug]
  rfl

/-- Generalisation of the key-miss argument: a character satisfying a
class that every key of the table fails cannot be a key. -/
theorem lookup_none_of_class {α : Type} (ps : List (Char × α)) (P : Char → Bool)
    (c : Char) (hc : P c = true) (hkeys : ∀ p ∈ ps, P p.1 = false) :
    lookupChar ps c = none := by
  refine lookupChar_eq_none ps c fun p hp hceq => ?_
  rw [hceq, hkeys p hp] at hc
  exact Bool.false_ne_true hc

/-- `transliterate_en_to_ru` is the identity on text drawn from a class
disjoint from the mapping keys and digraph starts. -/
theorem transliterate_ru_id_of_class (P : Char → Bool) (l : List Char)
    (h : ∀ c ∈ l, P c = true)
    (hkeys : ∀ p ∈ ruPairs, P p.1 = false)
    (hdig : ∀ p ∈ ruDigraphs, P p.1.1 = false) :
    transliterate_en_to_ru l = l := by
  unfold transliterate_en_to_ru
  rw [applyDigraphs_id ruDigraphs l]
  · refine concatMapChars_id _ _ fun c hc => ?_
    unfold ruCharMap
    rw [lookup_none_of_class ruPairs P c (h c hc) hkeys]
    rfl
  · intro p hp c hc hceq
    have h1 := h c hc
    rw [hceq, hdig p hp] at h1
    exact Bool.false_ne_true h1

/-- `transliterate_en_to_he` is the identity on text drawn from a class
disjoint from the lower-case table keys, the mapping keys and the digraph
starts. -/
theorem transliterate_he_id_of_class (P : Char → Bool) (l : List Char)
    (h : ∀ c ∈ l, P c = true)
    (hlower : ∀ p ∈ lowerPairs, P p.1 = false)
    (hkeys : ∀ p ∈ hePairs, P p.1 = false)
    (hdig : ∀ p ∈ heDigraphs, P p.1.1 = false) :
    transliterate_en_to_he l = l := by
  unfold transliterate_en_to_he
  have hmap : l.map pyLower = l := by
    induction l with
    | nil => rfl
    | cons c rest ih =>
      simp only [List.map_cons, List.cons.injEq]
      refine ⟨?_, ih fun d hd => h d (List.mem_cons_of_mem _ hd)⟩
      unfold pyLower
      rw [lookup_none_of_class lowerPairs P c (h c (List.mem_cons_self _ _)) hlower]
      rfl
  rw [hmap]
  rw [applyDigraphs_id heDigraphs l]
  · refine concatMapChars_id _ _ fun c hc => ?_
    unfold heCharMap
    rw [lookup_none_of_class hePairs P c (h c hc) hkeys]
    rfl
  · intro p hp c hc hceq
    have h1 := h c hc
    rw [hceq, hdig p hp] at h1
    exact Bool.false_ne_true h1

theorem ruCharMap_ne_nil (c : Char) : ruCharMap c ≠ [] := by
  unfold ruCharMap
  cases hl : lookupChar ruPairs c with
  | none => simp
  | some v =>
    simp only [Option.getD_some]
    have : ∀ p ∈ ruPairs, p.2 ≠ [] := by decide
    exact this (c, v) (lookupChar_some_mem _ _ _ hl)

theorem heCharMap_ne_nil (c : Char) : heCharMap c ≠ [] := by
  unfold heCharMap
  cases hl : lookupChar hePairs c with
  | none => simp
  | some v =>
    simp only [Option.getD_some]
    have : ∀ p ∈ hePairs, p.2 ≠ [] := by decide
    exact this (c, v) (lookupChar_some_mem _ _ _ hl)

theorem transliterate_en_to_ru_ne_nil (l : List Char) (h : l ≠ []) :
    transliterate_en_to_ru l ≠ [] :=
  concatMapChars_ne_nil _ _ (applyDigraphs_ne_nil _ _ h)
    fun c _ => ruCharMap_ne_nil c

theorem transliterate_en_to_he_ne_nil (l : List Char) (h : l ≠ []) :
    transliterate_en_to_he l ≠ [] := by
  refine concatMapChars_ne_nil _ _ (applyDigraphs_ne_nil _ _ ?_)
    fun c _ => heCharMap_ne_nil c
  intro hmap
  exact h (List.map_eq_nil_iff.mp hmap)

theorem str_ne_empty_of_data (s : String) (h : s.data ≠ []) : s ≠ "" := by
  intro hs
  rw [hs] at h
  exact h rfl

theorem data_ne_nil_of_str (s : String) (h : s ≠ "") : s.data ≠ [] := by
  intro hd
  refine h ?_
  cases s with
  | mk data => cases hd; rfl

/-- The character class of `VENUE_PATTERNS['name_ru']`: Cyrillic letters,
digits, whitespace, hyphen and dash variants, quote variants. -/
def venueNameRuChar (c : Char) : Bool :=
  let n := c.toNat
  (1072 ≤ n && n ≤ 1103) || (1040 ≤ n && n ≤ 1071) || n == 1105 || n == 1025 ||
  (48 ≤ n && n ≤ 57) ||
  n == 32 || n == 9 || n == 10 || n == 11 || n == 12 || n == 13 ||
  n == 45 || n == 8211 || n == 8212 ||
  n == 39 || n == 34 || n == 171 || n == 187 || n == 8222

/-- The character class of `VENUE_PATTERNS['name_he']`: the Hebrew block
(which contains the geresh and gershayim), digits, whitespace, hyphens and
quotes. -/
def venueNameHeChar (c : Char) : Bool :=
  let n := c.toNat
  (1424 ≤ n && n ≤ 1535) || (48 ≤ n && n ≤ 57) ||
  n == 32 || n == 9 || n == 10 || n == 11 || n == 12 || n == 13 ||
  n == 45 || n == 8211 || n == 8212 ||
  n == 39 || n == 34 || n == 171 || n == 187

/-- The character class of `VENUE_PATTERNS['description_ru']`. -/
def venueDescRuChar (c : Char) : Bool :=
  let n := c.toNat
  (1072 ≤ n && n ≤ 1103) || (1040 ≤ n && n ≤ 1071) || n == 1105 || n == 1025 ||
  (48 ≤ n && n ≤ 57) ||
  n == 32 || n == 9 || n == 10 || n == 11 || n == 12 || n == 13 ||
  n == 44 || n == 46 || n == 47 || n == 45 || n == 8211 || n == 8212 ||
  n == 58 || n == 59 || n == 39 || n == 34 || n == 171 || n == 187 ||
  n == 8222 || n == 33 || n == 63 || n == 40 || n == 8217 || n == 41 ||
  n == 91 || n == 93

/-- The character class of `VENUE_PATTERNS['description_he']`. -/
def venueDescHeChar (c : Char) : Bool :=
  let n := c.toNat
  (1424 ≤ n && n ≤ 1535) || (48 ≤ n && n ≤ 57) ||
  n == 32 || n == 9 || n == 10 || n == 11 || n == 12 || n == 13 ||
  n == 44 || n == 46 || n == 47 || n == 45 || n == 8211 || n == 8212 ||
  n == 58 || n == 59 || n == 39 || n == 34 || n == 171 || n == 187 ||
  n == 33 || n == 63 || n == 40 || n == 8217 || n == 41 ||
  n == 91 || n == 93

/-- `re.match(VENUE_PATTERNS['name_ru'], s)`: class plus 3-100 length. -/
def matchesRuVenueName (s : String) : Bool :=
  s.data.all venueNameRuChar && decide (3 ≤ s.data.length) &&
    decide (s.data.length ≤ 100)

def matchesHeVenueName (s : String) : Bool :=
  s.data.all venueNameHeChar && decide (3 ≤ s.data.length) &&
    decide (s.data.length ≤ 100)

def matchesRuVenueDesc (s : String) : Bool :=
  s.data.all venueDescRuChar && decide (20 ≤ s.data.length) &&
    decide (s.data.length ≤ 1000)

def matchesHeVenueDesc (s : String) : Bool :=
  s.data.all venueDescHeChar && decide (20 ≤ s.data.length) &&
    decide (s.data.length ≤ 1000)

theorem ruPairs_keys_not_ruName : ∀ p ∈ ruPairs, venueNameRuChar p.1 = false := by
  decide

theorem ruDigraphs_not_ruName : ∀ p ∈ ruDigraphs, venueNameRuChar p.1.1 = false := by
  decide

theorem ruPairs_keys_not_ruDesc : ∀ p ∈ ruPairs, venueDescRuChar p.1 = false := by
  decide

theorem ruDigraphs_not_ruDesc : ∀ p ∈ ruDigraphs, venueDescRuChar p.1.1 = false := by
  decide

theorem lowerPairs_keys_not_heName : ∀ p ∈ lowerPairs, venueNameHeChar p.1 = false := by
  decide

theorem hePairs_keys_not_heName : ∀ p ∈ hePairs, venueNameHeChar p.1 = false := by
  decide

theorem heDigraphs_not_heName : ∀ p ∈ heDigraphs, venueNameHeChar p.1.1 = false := by
  decide

theorem lowerPairs_keys_not_heDesc : ∀ p ∈ lowerPairs, venueDescHeChar p.1 = false := by
  decide

theorem hePairs_keys_not_heDesc : ∀ p ∈ hePairs, venueDescHeChar p.1 = false := by
  decide

theorem heDigraphs_not_heDesc : ∀ p ∈ heDigraphs, venueDescHeChar p.1.1 = false := by
  decide

/-- The transliteration patch is the identity on a validated Russian venue
name or description. -/
theorem translitRuStr_id_of_name (s : String) (h : matchesRuVenueName s = true) :
    translitRuStr s = s := by
  unfold matchesRuVenueName at h
  simp only [Bool.and_eq_true, List.all_eq_true] at h
  unfold translitRuStr
  rw [transliterate_ru_id_of_class venueNameRuChar s.data h.1.1
    ruPairs_keys_not_ruName ruDigraphs_not_ruName]

theorem translitRuStr_id_of_desc (s : String) (h : matchesRuVenueDesc s = true) :
    translitRuStr s = s := by
  unfold matchesRuVenueDesc at h
  simp only [Bool.and_eq_true, List.all_eq_true] at h
  unfold translitRuStr
  rw [transliterate_ru_id_of_class venueDescRuChar s.data h.1.1
    ruPairs_keys_not_ruDesc ruDigraphs_not_ruDesc]

/-- The transliteration patch is the identity on a validated Hebrew venue
name or description. -/
theorem translitHeStr_id_of_name (s : String) (h : matchesHeVenueName s = true) :
    translitHeStr s = s := by
  unfold matchesHeVenueName at h
  simp only [Bool.and_eq_true, List.all_eq_true] at h
  unfold translitHeStr
  rw [transliterate_he_id_of_class venueNameHeChar s.data h.1.1
    lowerPairs_keys_not_heName hePairs_keys_not_heName heDigraphs_not_heName]

theorem translitHeStr_id_of_desc (s : String) (h : matchesHeVenueDesc s = true) :
    translitHeStr s = s := by
  unfold matchesHeVenueDesc at h
  simp only [Bool.and_eq_true, List.all_eq_true] at h
  unfold translitHeStr
  rw [transliterate_he_id_of_class venueDescHeChar s.data h.1.1
    lowerPairs_keys_not_heDesc hePairs_keys_not_heDesc heDigraphs_not_heDesc]

theorem translitRuStr_ne_empty (s : String) (h : s ≠ "") :
    translitRuStr s ≠ "" :=
  str_ne_empty_of_data _
    (transliterate_en_to_ru_ne_nil s.data (data_ne_nil_of_str s h))

theorem translitHeStr_ne_empty (s : String) (h : s ≠ "") :
    translitHeStr s ≠ "" :=
  str_ne_empty_of_data _
    (transliterate_en_to_he_ne_nil s.data (data_ne_nil_of_str s h))

theorem matchesRuVenueName_ne_empty (s : String)
    (h : matchesRuVenueName s = true) : s ≠ "" := by
  unfold matchesRuVenueName at h
  simp only [Bool.and_eq_true, decide_eq_true_eq] at h
  refine str_ne_empty_of_data s fun hd => ?_
  rw [hd] at h
  simp at h

theorem matchesHeVenueName_ne_empty (s : String)
    (h : matchesHeVenueName s = true) : s ≠ "" := by
  unfold matchesHeVenueName at h
  simp only [Bool.and_eq_true, decide_eq_true_eq] at h
  refine str_ne_empty_of_data s fun hd => ?_
  rw [hd] at h
  simp at h

theorem matchesRuVenueDesc_ne_empty (s : String)
    (h : matchesRuVenueDesc s = true) : s ≠ "" := by
  unfold matchesRuVenueDesc at h
  simp only [Bool.and_eq_true, decide_eq_true_eq] at h
  refine str_ne_empty_of_data s fun hd => ?_
  rw [hd] at h
  simp at h

theorem matchesHeVenueDesc_ne_empty (s : String)
    (h : matchesHeVenueDesc s = true) : s ≠ "" := by
  unfold matchesHeVenueDesc at h
  simp only [Bool.and_eq_true, decide_eq_true_eq] at h
  refine str_ne_empty_of_data s fun hd => ?_
  rw [hd] at h
  simp at h

/-- Body of a POST venue request (JSON): the three strictly required keys
are plain, everything else optional. -/
structure VenueCreateData where
  name_en : Option String := none
  name_ru : Option String := none
  name_he : Option String := none
  description_en : Option String := none
  description_ru : Option String := none
  description_he : Option String := none
  address_en : String
  city_en : String
  venue_type_en : String
  phone : Option String := none
  website : Option String := none
  email : Option String := none

/-- External calls made while creating a venue. -/
structure CreateCounts where
  translateCalls : Nat
  geocodeCalls : Nat
  deriving DecidableEq

/-- The source-language selection and uniqueness check of
`create_new_venue` (venues_controllers.py lines 165-185): the first
present name in the order en, he, ru becomes the source; the en and he
branches query their own field, while the ru branch queries the `name_he`
field with the Russian value — embedded faithfully to the source
(`Venue.objects(name_he=data["name_ru"])` under the comment
`Check if name_ru already in use`). -/
def nameSourceCheck (env : Env) (d : VenueCreateData) :
    Except UErr (String × String) :=
  match d.name_en with
  | some v =>
    if env.venues.any fun w => w.name_en == v then
      Except.error ⟨"Venue with this name already exists", 409⟩
    else Except.ok ("en", v)
  | none =>
    match d.name_he with
    | some v =>
      if env.venues.any fun w => w.name_he == v then
        Except.error ⟨"Venue with this name already exists", 409⟩
      else Except.ok ("iw", v)
    | none =>
      match d.name_ru with
      | some v =>
        if env.venues.any fun w => w.name_he == v then
          Except.error ⟨"Venue with this name already exists", 409⟩
        else Except.ok ("ru", v)
      | none =>
        Except.error ⟨"At least one name in any language must be provided", 400⟩

/-- The description source selection, in the same en, he, ru order (no
uniqueness check for descriptions). -/
def descSource (d : VenueCreateData) : Except UErr (String × String) :=
  match d.description_en with
  | some v => Except.ok ("en", v)
  | none =>
    match d.description_he with
    | some v => Except.ok ("iw", v)
    | none =>
      match d.description_ru with
      | some v => Except.ok ("ru", v)
      | none =>
        Except.error
          ⟨"At least one description in any language must be provided", 400⟩

/-- City resolution in `create_new_venue`: take the stored city, otherwise
validate through GeoNames and save a new City document; returns the pair
(name_en, name_he) the rest of the request reads. -/
def cityLookupOrCreate (env : Env) (cityEn : String) :
    Except UErr (String × String) :=
  match env.cities.find? fun p => p.1 == cityEn with
  | some city => Except.ok city
  | none =>
    match env.geonames cityEn with
    | some names => Except.ok (names.1, names.2.2)
    | none => Except.error ⟨"City not found", 404⟩

/-- `create_new_venue` from `backend/src/controllers/venues_controllers.py`
(JSON requests past `validate_venue_data`, no file upload): venue type
lookup, name source selection with uniqueness check, auto-fill of the
missing names, description source selection and auto-fill, city
resolution, address translation and geocoding, the Hebrew and Russian
transliteration patch, and the final document with `slugify(name_en)`. -/
def create_new_venue (env : Env) (d : VenueCreateData) :
    Except UErr (Venue × CreateCounts) :=
  if ¬ env.venueTypes.contains (pyLowerStr d.venue_type_en) then
    Except.error ⟨"Venue type not found", 404⟩
  else
    match nameSourceCheck env d with
    | Except.error e => Except.error e
    | Except.ok src =>
      let nameEn0 := d.name_en.getD ""
      let name_en :=
        if nameEn0 = "" then env.translate src.2 src.1 "en" else nameEn0
      let c1 : Nat := if nameEn0 = "" then 1 else 0
      let nameHe0 := d.name_he.getD ""
      let name_he :=
        if nameHe0 = "" then env.translate src.2 src.1 "iw" else nameHe0
      let c2 : Nat := if nameHe0 = "" then 1 else 0
      let nameRu0 := d.name_ru.getD ""
      let name_ru :=
        if nameRu0 = "" then env.translate src.2 src.1 "ru" else nameRu0
      let c3 : Nat := if nameRu0 = "" then 1 else 0
      match descSource d with
      | Except.error e => Except.error e
      | Except.ok dsrc =>
        let descEn0 := d.description_en.getD ""
        let description_en :=
          if descEn0 = "" then env.translate dsrc.2 dsrc.1 "en" else descEn0
        let c4 : Nat := if descEn0 = "" then 1 else 0
        let descHe0 := d.description_he.getD ""
        let description_he :=
          if descHe0 = "" then env.translate dsrc.2 dsrc.1 "iw" else descHe0
        let c5 : Nat := if descHe0 = "" then 1 else 0
        let descRu0 := d.description_ru.getD ""
        let description_ru :=
          if descRu0 = "" then env.translate dsrc.2 dsrc.1 "ru" else descRu0
        let c6 : Nat := if descRu0 = "" then 1 else 0
        match cityLookupOrCreate env d.city_en with
        | Except.error e => Except.error e
        | Except.ok city =>
          let address_he := env.translate d.address_en "en" "iw"
          let full_address_he := address_he ++ ", " ++ city.2
          let location := env.geocode full_address_he
          let address_ru := env.translate address_he "iw" "ru"
          let venue : Venue := {
            name_en := name_en
            name_ru := translitRuStr name_ru
            name_he := translitHeStr name_he
            address_en := d.address_en
            address_ru := address_ru
            address_he := address_he
            description_en := description_en
            description_ru := translitRuStr description_ru
            description_he := translitHeStr description_he
            venue_type := pyLowerStr d.venue_type_en
            city := city.1
            city_name_he := city.2
            location := location
            phone := d.phone
            website := d.website
            email := d.email
            is_active := true
            image_path := "/uploads/img/venues/default/default.png"
            slug := slugifyStr name_en }
          Except.ok (venue, ⟨c1 + c2 + c3 + c4 + c5 + c6 + 2, 1⟩)

def isConflict409 {α : Type} : Except UErr α → Bool
  | Except.error e => e.status_code == 409
  | _ => false

def createTranslateCalls : Except UErr (Venue × CreateCounts) → Nat
  | Except.ok (_, c) => c.translateCalls
  | Except.error _ => 0

/-- A create request supplying only the Russian name of an already stored
venue (`testVenue.name_ru`), plus a Russian description. -/
def c1Data : VenueCreateData :=
  { name_ru := some "Гранд Холл",
    description_ru := some "Очень большой зал в центре города",
    address_en := "3 Main St", city_en := "Haifa", venue_type_en := "Hall" }

/-- C1 evaluated at the failing input: although `testEnv` already stores a
venue whose `name_ru` equals the supplied Russian source name, the create
raises no conflict and performs six translation calls, because the ru
branch checks the `name_he` field instead of `name_ru` (and the event
create path performs no uniqueness check at all). -/
theorem create_venue_ru_duplicate_not_detected :
    testVenue ∈ testEnv.venues ∧
    testVenue.name_ru = "Гранд Холл" ∧
    c1Data.name_ru = some "Гранд Холл" ∧
    isConflict409 (create_new_venue testEnv c1Data) = false ∧
    createTranslateCalls (create_new_venue testEnv c1Data) = 6 := by
  refine ⟨by decide, rfl, rfl, by decide, by decide⟩

theorem filled_ne_empty (x : Option String) (t : String) (ht : t ≠ "") :
    (if x.getD "" = "" then t else x.getD "") ≠ "" := by
  by_cases h0 : x.getD "" = ""
  · rw [if_pos h0]
    exact ht
  · rw [if_neg h0]
    exact h0

theorem filled_supplied (x : Option String) (t s : String) (hx : x = some s)
    (hs : s ≠ "") : (if x.getD "" = "" then t else x.getD "") = s := by
  rw [hx]
  simp only [Option.getD_some]
  rw [if_neg hs]

/-- C6: a create request supplying at least one (validated) name and one
description yields a venue whose three name variants and three description
variants are all populated, with every supplied value stored unchanged
(transliteration is the identity on validated Hebrew and Russian values);
the source language is the first supplied one in priority order en, he,
ru; a request with no name at all fails with a 400 validation error before
anything is persisted. -/
theorem venue_autofill_completeness (env : Env) (d : VenueCreateData)
    (hvt : env.venueTypes.contains (pyLowerStr d.venue_type_en) = true) :
    ((∃ p, nameSourceCheck env d = Except.ok p) →
      (∃ q, descSource d = Except.ok q) →
      (∃ c, cityLookupOrCreate env d.city_en = Except.ok c) →
      (∀ s a b, env.translate s a b ≠ "") →
      (∀ s, d.name_en = some s → s ≠ "") →
      (∀ s, d.name_he = some s → matchesHeVenueName s = true) →
      (∀ s, d.name_ru = some s → matchesRuVenueName s = true) →
      (∀ s, d.description_en = some s → s ≠ "") →
      (∀ s, d.description_he = some s → matchesHeVenueDesc s = true) →
      (∀ s, d.description_ru = some s → matchesRuVenueDesc s = true) →
      ∃ v counts, create_new_venue env d = Except.ok (v, counts) ∧
        v.name_en ≠ "" ∧ v.name_ru ≠ "" ∧ v.name_he ≠ "" ∧
        v.description_en ≠ "" ∧ v.description_ru ≠ "" ∧
        v.description_he ≠ "" ∧
        (∀ s, d.name_en = some s → v.name_en = s) ∧
        (∀ s, d.name_he = some s → v.name_he = s) ∧
        (∀ s, d.name_ru = some s → v.name_ru = s) ∧
        (∀ s, d.description_en = some s → v.description_en = s) ∧
        (∀ s, d.description_he = some s → v.description_he = s) ∧
        (∀ s, d.description_ru = some s → v.description_ru = s)) ∧
    (∀ s q, d.name_en = some s →
      nameSourceCheck env d = Except.ok q → q = ("en", s)) ∧
    (∀ s q, d.name_en = none → d.name_he = some s →
      nameSourceCheck env d = Except.ok q → q = ("iw", s)) ∧
    (∀ s q, d.name_en = none → d.name_he = none → d.name_ru = some s →
      nameSourceCheck env d = Except.ok q → q = ("ru", s)) ∧
    (d.name_en = none → d.name_he = none → d.name_ru = none →
      create_new_venue env d = Except.error
        ⟨"At least one name in any language must be provided", 400⟩) := by
  refine ⟨?_, ?_, ?_, ?_, ?_⟩
  · rintro ⟨p, hp⟩ ⟨q, hq⟩ ⟨c, hc⟩ htr hne hnh hnr hde hdh hdr
    unfold create_new_venue
    rw [if_neg (fun h => h hvt), hp, hq, hc]
    dsimp only
    refine ⟨_, _, rfl, ?_, ?_, ?_, ?_, ?_, ?_, ?_, ?_, ?_, ?_, ?_, ?_⟩
    · exact filled_ne_empty d.name_en _ (htr p.2 p.1 "en")
    · exact translitRuStr_ne_empty _
        (filled_ne_empty d.name_ru _ (htr p.2 p.1 "ru"))
    · exact translitHeStr_ne_empty _
        (filled_ne_empty d.name_he _ (htr p.2 p.1 "iw"))
    · exact filled_ne_empty d.description_en _ (htr q.2 q.1 "en")
    · exact translitRuStr_ne_empty _
        (filled_ne_empty d.description_ru _ (htr q.2 q.1 "ru"))
    · exact translitHeStr_ne_empty _
        (filled_ne_empty d.description_he _ (htr q.2 q.1 "iw"))
    · intro s hs
      exact filled_supplied d.name_en _ s hs (hne s hs)
    · intro s hs
      rw [filled_supplied d.name_he _ s hs
        (matchesHeVenueName_ne_empty s (hnh s hs))]
      exact translitHeStr_id_of_name s (hnh s hs)
    · intro s hs
      rw [filled_supplied d.name_ru _ s hs
        (matchesRuVenueName_ne_empty s (hnr s hs))]
      exact translitRuStr_id_of_name s (hnr s hs)
    · intro s hs
      exact filled_supplied d.description_en _ s hs (hde s hs)
    · intro s hs
      rw [filled_supplied d.description_he _ s hs
        (matchesHeVenueDesc_ne_empty s (hdh s hs))]
      exact translitHeStr_id_of_desc s (hdh s hs)
    · intro s hs
      rw [filled_supplied d.description_ru _ s hs
        (matchesRuVenueDesc_ne_empty s (hdr s hs))]
      exact translitRuStr_id_of_desc s (hdr s hs)
  · intro s q hsome heq
    unfold nameSourceCheck at heq
    rw [hsome] at heq
    dsimp only at heq
    by_cases hany : (env.venues.any fun w => w.name_en == s) = true
    · rw [if_pos hany] at heq
      exact absurd heq (by simp)
    · rw [if_neg hany] at heq
      exact (Except.ok.injEq _ _ |>.mp heq).symm
  · intro s q hen hhe heq
    unfold nameSourceCheck at heq
    rw [hen, hhe] at heq
    dsimp only at heq
    by_cases hany : (env.venues.any fun w => w.name_he == s) = true
    · rw [if_pos hany] at heq
      exact absurd heq (by simp)
    · rw [if_neg hany] at heq
      exact (Except.ok.injEq _ _ |>.mp heq).symm
  · intro s q hen hhe hru heq
    unfold nameSourceCheck at heq
    rw [hen, hhe, hru] at heq
    dsimp only at heq
    by_cases hany : (env.venues.any fun w => w.name_he == s) = true
    · rw [if_pos hany] at heq
      exact absurd heq (by simp)
    · rw [if_neg hany] at heq
      exact (Except.ok.injEq _ _ |>.mp heq).symm
  · intro hen hhe hru
    have hsrc : nameSourceCheck env d = Except.error
        ⟨"At least one name in any language must be provided", 400⟩ := by
      unfold nameSourceCheck
      rw [hen, hhe, hru]
    unfold create_new_venue
    rw [if_neg (fun h => h hvt), hsrc]

/-- `testEnv` with a translator that never returns empty text. -/
def c6Env : Env :=
  { testEnv with translate := fun s _ _ => if s = "" then "A" else s }

/-- A create request supplying only the Hebrew name and the English
description, plus the required reference fields. -/
def c6Data : VenueCreateData :=
  { name_he := some "אולם חדש",
    description_en := some "A nice new hall downtown",
    address_en := "2 Main St", city_en := "Haifa", venue_type_en := "Hall" }

/-- Witness for C6: the created venue keeps the supplied Hebrew name
unchanged, has non-empty English and Russian names, and keeps the supplied
English description. -/
theorem venue_autofill_witness :
    ∃ v counts, create_new_venue c6Env c6Data = Except.ok (v, counts) ∧
      v.name_he = "אולם חדש" ∧ v.name_en ≠ "" ∧ v.name_ru ≠ "" ∧
      v.description_en = "A nice new hall downtown" := by
  obtain ⟨hmain, _, _, _, _⟩ :=
    venue_autofill_completeness c6Env c6Data (by decide)
  obtain ⟨v, counts, heq, hne1, hnr1, hnh1, hde1, hdr1, hdh1,
      hsen, hshe, hsru, hsden, hsdhe, hsdru⟩ :=
    hmain ⟨("iw", "אולם חדש"), rfl⟩
      ⟨("en", "A nice new hall downtown"), rfl⟩
      ⟨("Haifa", "חיפה"), rfl⟩
      (by
        intro s a b
        show (if s = "" then "A" else s) ≠ ""
        by_cases h : s = ""
        · rw [if_pos h]
          decide
        · rw [if_neg h]
          exact h)
      (by intro s hs; simp [c6Data] at hs)
      (by
        intro s hs
        injection hs with h
        subst h
        decide)
      (by intro s hs; simp [c6Data] at hs)
      (by
        intro s hs
        injection hs with h
        subst h
        decide)
      (by intro s hs; simp [c6Data] at hs)
      (by intro s hs; simp [c6Data] at hs)
  exact ⟨v, counts, heq, hshe "אולם חדש" rfl, hne1, hnr1,
    hsden "A nice new hall downtown" rfl⟩
